import Mathlib

/-!
Shallow embedding of the bookkeeping/tax-document application's core logic:
the transaction reconciliation engine (upsertTransactionsFromLexoffice), the
document-transaction link synchronizers and the missing-receipt task generator
(the reactive passes in the application root component), the analysis-result
normalizer (clampConfidence, deriveDefaultWarnings, ensureExtendedAnalysisData)
and the server-side document store (addDocument, updateDocument).

Modelling conventions:
- JavaScript dates are modelled as natural numbers (epoch milliseconds); the
  construction of a Date from an ISO string is modelled as taking the parsed
  timestamp directly.  ISO date strings stored by the server are kept as
  strings.
- JavaScript numbers are modelled as rationals; where NaN is semantically
  relevant (confidence handling) an explicit JsNum type with a nan case is
  used.  Math.round is round-half-toward-plus-infinity; toFixed(2) is modelled
  as decimal rounding at two digits.
- JavaScript truthiness on optional strings (undefined or empty string is
  falsy) is modelled explicitly where the source relies on it.
- Nullable record fields become Option types; a Partial patch object becomes a
  record of Option-wrapped fields (an absent key is none).
- Effectful inputs (content hash of the uploaded bytes, generated ids, the
  current time) are passed as explicit parameters.
-/

/-- Models a JavaScript number that may be NaN. -/
inductive JsNum where
  | nan : JsNum
  | num : ℚ → JsNum
deriving DecidableEq, Repr

/-- Models Math.round: round half toward positive infinity. -/
def jsRound (q : ℚ) : ℤ := ⌊q + 1/2⌋

/-- Models x.toFixed(2) reinterpreted as a number: decimal rounding at two digits. -/
def qToFixed2 (q : ℚ) : ℚ := (jsRound (q * 100) : ℚ) / 100

/-- Models Number(x.toFixed(2)) on a possibly-NaN number. -/
def jsToFixed2 : JsNum → JsNum
  | JsNum.nan => JsNum.nan
  | JsNum.num q => JsNum.num (qToFixed2 q)

/-- Models addition of JavaScript numbers (NaN absorbs). -/
def jsAdd : JsNum → JsNum → JsNum
  | JsNum.nan, _ => JsNum.nan
  | _, JsNum.nan => JsNum.nan
  | JsNum.num a, JsNum.num b => JsNum.num (a + b)

/-- Models division of a JavaScript number by a nonzero natural count. -/
def jsDivNat : JsNum → Nat → JsNum
  | JsNum.nan, _ => JsNum.nan
  | JsNum.num _, 0 => JsNum.nan
  | JsNum.num q, (n+1) => JsNum.num (q / (n+1 : ℚ))

/-- Models a strict comparison x < bound on a possibly-NaN number (NaN compares false). -/
def jsLtQ : JsNum → ℚ → Bool
  | JsNum.nan, _ => false
  | JsNum.num q, b => decide (q < b)

/-- Models JavaScript truthiness of a string-or-undefined value. -/
def strTruthy : Option String → Bool
  | none => false
  | some s => s != ""

/-- Models the JavaScript expression a or-else b on strings (empty string is falsy). -/
def jsStrOrS (s dflt : String) : String := if s == "" then dflt else s

/-- Models the JavaScript expression a or-else b on an optional string. -/
def jsStrOr (o : Option String) (dflt : String) : String :=
  match o with
  | none => dflt
  | some s => jsStrOrS s dflt

/-- Decides whether the first character list is an initial segment of the second. -/
def charListHasPre : List Char → List Char → Bool
  | [], _ => true
  | _ :: _, [] => false
  | p :: ps, c :: cs => p == c && charListHasPre ps cs

/-- Decides whether the first character list occurs contiguously in the second. -/
def charListHasSub (pat l : List Char) : Bool :=
  match l with
  | [] => pat.isEmpty
  | _ :: cs => charListHasPre pat l || charListHasSub pat cs

/-- Models the substring test w.includes(pat) of JavaScript strings. -/
def jsIncludes (w pat : String) : Bool := charListHasSub pat.toList w.toList

/- Enumerations from types.ts. -/

inductive DocumentSource where
  | MANUAL | LOCAL | EMAIL | WHATSAPP | LEXOFFICE
deriving DecidableEq, Repr

inductive DocumentStatus where
  | OK | MISSING_INVOICE | SCREENSHOT | ANALYZING | POTENTIAL_DUPLICATE | ARCHIVED | ERROR
deriving DecidableEq, Repr

inductive InvoiceType where
  | INCOMING | OUTGOING
deriving DecidableEq, Repr

/-- String value of the InvoiceType enum members in types.ts. -/
def invoiceTypeStr : InvoiceType → String
  | InvoiceType.INCOMING => "Eingangsrechnung"
  | InvoiceType.OUTGOING => "Ausgangsrechnung"

inductive LexofficeStatus where
  | NOT_SENT | SUCCESS | FAILED
deriving DecidableEq, Repr

inductive TransactionStatus where
  | COMPLETE | MISSING_RECEIPT | DRAFT
deriving DecidableEq, Repr

inductive TransactionSource where
  | MANUAL | LEXOFFICE | AI
deriving DecidableEq, Repr

inductive TaskStatus where
  | OPEN | IN_PROGRESS | DONE
deriving DecidableEq, Repr

inductive TaskPriority where
  | LOW | MEDIUM | HIGH
deriving DecidableEq, Repr

/- Data model from types.ts. -/

/-- Mirrors interface AccountingTransaction in types.ts (dates as epoch milliseconds). -/
structure AccountingTransaction where
  id : String
  externalId : Option String
  date : Nat
  description : String
  amount : ℚ
  invoiceType : InvoiceType
  taxCategory : String
  documentId : Option String
  status : TransactionStatus
  source : TransactionSource
  notes : Option String
  createdAt : Nat
  updatedAt : Nat
deriving DecidableEq, Repr

/-- Mirrors interface OcrFieldConfidence in types.ts. -/
structure OcrFieldConfidence where
  field : String
  value : String
  confidence : JsNum
  confidenceDescription : Option String
deriving DecidableEq, Repr

/-- Mirrors interface DocumentOcrMetadata in types.ts. -/
structure DocumentOcrMetadata where
  averageConfidence : JsNum
  analysedAt : Nat
  engineVersion : String
  pageCount : Option ℚ
  fields : List OcrFieldConfidence
  warnings : Option (List String)
deriving DecidableEq, Repr

/-- Mirrors the nested lexoffice send-state object of interface Document in types.ts. -/
structure LexofficeRef where
  status : LexofficeStatus
  sentAt : Nat
deriving DecidableEq, Repr

/-- Mirrors interface Document in types.ts (the client-side document record).
The browser File handle is omitted: it is an opaque platform object that none
of the modelled operations read or write. -/
structure AppDocument where
  id : String
  name : String
  date : Nat
  year : ℤ
  quarter : ℕ
  source : DocumentSource
  status : DocumentStatus
  fileUrl : String
  textContent : Option String
  vendor : Option String
  totalAmount : Option ℚ
  vatAmount : Option ℚ
  invoiceNumber : Option String
  invoiceType : InvoiceType
  taxCategory : Option String
  lexoffice : Option LexofficeRef
  errorMessage : Option String
  storageLocationId : Option String
  tags : Option (List String)
  linkedTransactionIds : Option (List String)
  ocrMetadata : Option DocumentOcrMetadata
deriving DecidableEq, Repr

/-- Mirrors interface TaskItem in types.ts. -/
structure TaskItem where
  id : String
  title : String
  description : Option String
  status : TaskStatus
  priority : TaskPriority
  relatedTransactionId : Option String
  relatedDocumentId : Option String
  dueDate : Option Nat
  createdAt : Nat
  completedAt : Option Nat
deriving DecidableEq, Repr

/- Transaction reconciliation engine (lexofficeService.ts). -/

/-- Mirrors interface LexofficeTransactionPayload in lexofficeService.ts; the
date string is modelled by its parsed timestamp. -/
structure LexofficeTransactionPayload where
  id : String
  description : String
  amount : ℚ
  date : Nat
  invoiceType : InvoiceType
  taxCategory : String
  invoiceNumber : Option String
  hasDocument : Bool
  voucherId : Option String
  fileIds : Option (List String)
  vendor : Option String
deriving DecidableEq, Repr

/-- Index construction of upsertTransactionsFromLexoffice: the Map built by one
forEach pass, entered only for truthy externalId, with later entries
overwriting earlier ones.  The recursion prefers the result for the tail, so
the last occurrence wins, exactly as repeated Map.set does. -/
def buildIndexFrom (i : Nat) (txs : List AccountingTransaction) (key : String) : Option Nat :=
  match txs with
  | [] => none
  | tx :: rest =>
    match buildIndexFrom (i + 1) rest key with
    | some j => some j
    | none =>
      match tx.externalId with
      | some e => if e != "" && key == e then some i else none
      | none => none

/-- Models the indexByExternalId map of upsertTransactionsFromLexoffice as a lookup function. -/
def indexByExternalId (txs : List AccountingTransaction) (key : String) : Option Nat :=
  buildIndexFrom 0 txs key

/-- Models the lookup linkedByInvoice.get(payload.invoiceNumber) guarded by
truthiness of payload.invoiceNumber. -/
def lookupLinkedDocument (linkedByInvoice : String → Option String) :
    Option String → Option String
  | some inv => if inv != "" then linkedByInvoice inv else none
  | none => none

/-- Accumulated state of the forEach loop of upsertTransactionsFromLexoffice;
also the shape of the returned result object. -/
structure UpsertResult where
  updatedTransactions : List AccountingTransaction
  notifications : List String
  imported : Nat
  updated : Nat
  skipped : Nat
  missingReceipts : Nat
deriving DecidableEq, Repr

/-- Body of the forEach loop of upsertTransactionsFromLexoffice for one payload.
The source increments missingReceipts before branching on the match; since the
branches never read it, the increment is carried into each branch's result
record here, which is observationally identical. -/
def upsertStep (index : String → Option Nat) (linkedByInvoice : String → Option String)
    (now : Nat) (s : UpsertResult) (payload : LexofficeTransactionPayload) : UpsertResult :=
  let documentId := lookupLinkedDocument linkedByInvoice payload.invoiceNumber
  let status := if strTruthy documentId then TransactionStatus.COMPLETE
                else TransactionStatus.MISSING_RECEIPT
  let mrInc : Nat := if status = TransactionStatus.MISSING_RECEIPT then 1 else 0
  match index payload.id with
  | some j =>
    match s.updatedTransactions[j]? with
    | some existing =>
      let tx : AccountingTransaction :=
        { existing with
          description := payload.description
          amount := payload.amount
          invoiceType := payload.invoiceType
          taxCategory := payload.taxCategory
          documentId := documentId.or existing.documentId
          status := status
          date := payload.date
          updatedAt := now
          source := TransactionSource.LEXOFFICE }
      { s with
        updatedTransactions := s.updatedTransactions.set j tx
        updated := s.updated + 1
        missingReceipts := s.missingReceipts + mrInc
        notifications := s.notifications ++
          ["Transaktion \"" ++ payload.description ++ "\" aktualisiert."] }
    | none => { s with missingReceipts := s.missingReceipts + mrInc }
  | none =>
    let tx : AccountingTransaction :=
      { id := "tx-" ++ payload.id
        externalId := some payload.id
        date := payload.date
        description := payload.description
        amount := payload.amount
        invoiceType := payload.invoiceType
        taxCategory := payload.taxCategory
        documentId := documentId
        status := status
        source := TransactionSource.LEXOFFICE
        notes := if strTruthy payload.invoiceNumber then
                   some ("Lexoffice Nr. " ++ payload.invoiceNumber.getD "")
                 else none
        createdAt := now
        updatedAt := now }
    { s with
      updatedTransactions := s.updatedTransactions ++ [tx]
      imported := s.imported + 1
      missingReceipts := s.missingReceipts + mrInc
      notifications := s.notifications ++
        ["Neue Transaktion \"" ++ payload.description ++ "\" importiert."] }

/-- Mirrors upsertTransactionsFromLexoffice in lexofficeService.ts: the index is
built once from the pre-existing transaction list and the incoming payloads are
folded through the loop body. -/
def upsertTransactionsFromLexoffice (incoming : List LexofficeTransactionPayload)
    (existingTransactions : List AccountingTransaction)
    (linkedByInvoice : String → Option String) (now : Nat) : UpsertResult :=
  incoming.foldl (upsertStep (indexByExternalId existingTransactions) linkedByInvoice now)
    { updatedTransactions := existingTransactions
      notifications := []
      imported := 0
      updated := 0
      skipped := 0
      missingReceipts := 0 }

/- Document-transaction link synchronizers (the reactive passes in the
application root component). -/

/-- Ids of the current document collection. -/
def documentIds (documents : List AppDocument) : List String := documents.map (fun d => d.id)

/-- Condition under which the transaction-side synchronizer pass resets a
transaction: its documentId is truthy and names no existing document. -/
def danglingDocLink (ids : List String) (tx : AccountingTransaction) : Bool :=
  match tx.documentId with
  | some d => d != "" && !(ids.contains d)
  | none => false

/-- Mirrors the transaction-side reactive pass: every transaction whose
documentId no longer names an existing document is reset to MISSING_RECEIPT
with documentId cleared; if nothing changed the previous list object is
returned unchanged. -/
def syncTransactionsWithDocuments (now : Nat) (documents : List AppDocument)
    (txs : List AccountingTransaction) : List AccountingTransaction :=
  let ids := documentIds documents
  let mapped := txs.map (fun tx =>
    if danglingDocLink ids tx then
      { tx with documentId := none, status := TransactionStatus.MISSING_RECEIPT, updatedAt := now }
    else tx)
  if txs.any (danglingDocLink ids) then mapped else txs

/-- Transaction ids collected per document by the document-side pass: the map
linkedByDoc is filled per transaction with truthy documentId, in list order, so
the bucket for a document id equals this filtered projection. -/
def linkedIdsFor (txs : List AccountingTransaction) (docId : String) : List String :=
  (txs.filter (fun tx =>
    match tx.documentId with
    | some d => d != "" && d == docId
    | none => false)).map (fun tx => tx.id)

/-- Comparison used by the document-side pass before overwriting
linkedTransactionIds: same length and every current id occurs in the computed
list. -/
def linkSetUnchanged (currentIds linkedIds : List String) : Bool :=
  currentIds.length == linkedIds.length && currentIds.all (fun i => linkedIds.contains i)

/-- Mirrors the document-side reactive pass: recompute each document's linked
transaction ids and overwrite them unless the comparison sees no membership
difference; if no document changed the previous list object is returned. -/
def syncDocumentsWithTransactions (documents : List AppDocument)
    (txs : List AccountingTransaction) : List AppDocument :=
  let mapped := documents.map (fun doc =>
    let linkedIds := linkedIdsFor txs doc.id
    let currentIds := doc.linkedTransactionIds.getD []
    if linkSetUnchanged currentIds linkedIds then doc
    else { doc with linkedTransactionIds := some linkedIds })
  if documents.any (fun doc =>
      !(linkSetUnchanged (doc.linkedTransactionIds.getD []) (linkedIdsFor txs doc.id))) then
    mapped
  else documents

/- Missing-receipt task generator (the tasks reactive pass in the application
root component). -/

/-- Insertion-order deduplication, modelling construction of a JavaScript Set
from an array: each element is inserted in turn and ignored when already
present, so the first occurrence wins and order is preserved. -/
def insertOrderDedup (l : List String) : List String :=
  l.foldl (fun acc x => if x ∈ acc then acc else acc ++ [x]) []

/-- Result of the walk over the existing tasks. -/
structure WalkResult where
  missing : List String
  tasks : List TaskItem
  changed : Bool
deriving DecidableEq, Repr

/-- Walk over the previous tasks: a task whose related transaction is still
missing is kept (and its id is consumed from the missing set); one whose
related transaction is no longer missing transitions to DONE once; tasks whose
relatedTransactionId is falsy — absent or the empty string, mirroring the
truthiness guard if (task.relatedTransactionId) of the source — pass through
untouched. -/
def walkTasks (now : Nat) : List String → List TaskItem → WalkResult
  | missing, [] => { missing := missing, tasks := [], changed := false }
  | missing, t :: ts =>
    if strTruthy t.relatedTransactionId then
      if t.relatedTransactionId.getD "" ∈ missing then
        let res := walkTasks now (missing.erase (t.relatedTransactionId.getD "")) ts
        { res with tasks := t :: res.tasks }
      else if t.status = TaskStatus.DONE then
        let res := walkTasks now missing ts
        { res with tasks := t :: res.tasks }
      else
        let res := walkTasks now missing ts
        { res with
          tasks := { t with status := TaskStatus.DONE,
                            completedAt := some (t.completedAt.getD now) } :: res.tasks
          changed := true }
    else
      let res := walkTasks now missing ts
      { res with tasks := t :: res.tasks }

/-- Rendering of the transaction date in the synthesized task description;
locale-dependent date formatting is modelled by an abstract rendering of the
timestamp. -/
def formatDateDE (d : Nat) : String := toString d

/-- Rendering of the transaction amount with two decimals in the synthesized
task description, modelled up to the rounded centi-value. -/
def formatAmount2 (q : ℚ) : String := toString (jsRound (q * 100))

/-- Task synthesized for a transaction that is missing a receipt. -/
def mkMissingTask (now : Nat) (tx : AccountingTransaction) : TaskItem :=
  { id := "task-" ++ tx.id
    title := "Beleg für " ++ jsStrOrS tx.description "Transaktion" ++ " beschaffen"
    description := some ("Bitte laden Sie den fehlenden Beleg für die Transaktion vom "
      ++ formatDateDE tx.date ++ " (" ++ formatAmount2 tx.amount ++ " €) nach.")
    status := TaskStatus.OPEN
    priority := if 1000 ≤ |tx.amount| then TaskPriority.HIGH else TaskPriority.MEDIUM
    relatedTransactionId := some tx.id
    relatedDocumentId := none
    dueDate := some (now + 7 * 24 * 60 * 60 * 1000)
    createdAt := now
    completedAt := none }

/-- Tasks created for the remaining missing transaction ids, in set order; an
id whose transaction cannot be found is skipped. -/
def createdTasks (now : Nat) (transactions : List AccountingTransaction)
    (remaining : List String) : List TaskItem :=
  remaining.filterMap (fun txId =>
    (transactions.find? (fun t => t.id == txId)).map (mkMissingTask now))

/-- Mirrors the tasks reactive pass in the application root component: walk the
existing tasks against the set of missing-receipt transaction ids, then create
tasks for uncovered ids; if nothing changed the previous task list object is
returned. -/
def generateTasks (now : Nat) (transactions : List AccountingTransaction)
    (prevTasks : List TaskItem) : List TaskItem :=
  let missing := insertOrderDedup
    ((transactions.filter (fun tx => tx.status = TransactionStatus.MISSING_RECEIPT)).map
      (fun tx => tx.id))
  let w := walkTasks now missing prevTasks
  let created := createdTasks now transactions w.missing
  if w.changed || !created.isEmpty then w.tasks ++ created else prevTasks

/- Analysis result normalizer (geminiService.ts). -/

/-- Default storage location id constant from types.ts. -/
def DEFAULT_DIGITAL_STORAGE_ID : String := "storage-default-digital"

/-- Mirrors interface GeminiAnalysisResult in types.ts. -/
structure GeminiAnalysisResult where
  isInvoice : Bool
  isOrderConfirmation : Bool
  isEmailBody : Bool
  documentDate : String
  textContent : String
  vendor : String
  totalAmount : ℚ
  vatAmount : ℚ
  invoiceNumber : String
  invoiceType : InvoiceType
  taxCategory : String
  averageConfidence : Option JsNum
  fieldConfidences : Option (List OcrFieldConfidence)
  warnings : Option (List String)
  suggestedStorageLocationId : Option String
  pageCount : Option ℚ
deriving DecidableEq, Repr

/-- Mirrors clampConfidence in geminiService.ts: a missing or NaN value becomes
65, anything else is rounded and clamped into the range 10 to 100. -/
def clampConfidence : Option JsNum → ℚ
  | none => 65
  | some JsNum.nan => 65
  | some (JsNum.num q) => max 10 (min 100 (jsRound q : ℚ))

/-- Mirrors describeConfidence in geminiService.ts. -/
def describeConfidence (value : ℚ) : String :=
  if 90 ≤ value then "Sehr hoch"
  else if 75 ≤ value then "Stark"
  else if 60 ≤ value then "Mittel"
  else "Gering"

/-- Rendering of a number with two decimals as a string in field values,
modelled up to the rounded centi-value. -/
def numToFixed2Str (q : ℚ) : String := toString (jsRound (q * 100))

/-- Mirrors buildDefaultFieldConfidences in geminiService.ts. -/
def buildDefaultFieldConfidences (result : GeminiAnalysisResult) : List OcrFieldConfidence :=
  ([ { field := "vendor", value := jsStrOrS result.vendor "",
       confidence := JsNum.num (clampConfidence (some (JsNum.num (if result.vendor != "" then 92 else 65)))),
       confidenceDescription := none },
     { field := "invoiceNumber", value := jsStrOrS result.invoiceNumber "",
       confidence := JsNum.num (clampConfidence (some (JsNum.num (if result.invoiceNumber != "" then 88 else 60)))),
       confidenceDescription := none },
     { field := "documentDate", value := jsStrOrS result.documentDate "",
       confidence := JsNum.num (clampConfidence (some (JsNum.num (if result.documentDate != "" then 87 else 60)))),
       confidenceDescription := none },
     { field := "totalAmount", value := numToFixed2Str result.totalAmount,
       confidence := JsNum.num (clampConfidence (some (JsNum.num (if result.totalAmount != 0 then 90 else 58)))),
       confidenceDescription := none },
     { field := "vatAmount", value := numToFixed2Str result.vatAmount,
       confidence := JsNum.num (clampConfidence (some (JsNum.num (if result.vatAmount != 0 then 82 else 55)))),
       confidenceDescription := none },
     { field := "invoiceType", value := invoiceTypeStr result.invoiceType,
       confidence := JsNum.num (clampConfidence (some (JsNum.num 86))),
       confidenceDescription := none },
     { field := "taxCategory", value := jsStrOrS result.taxCategory "Sonstiges",
       confidence := JsNum.num (clampConfidence (some (JsNum.num
         (if result.taxCategory != "" && result.taxCategory != "Sonstiges" then 78 else 65)))),
       confidenceDescription := none } ] : List OcrFieldConfidence).map
    (fun f => { f with confidenceDescription := some (describeConfidence
      (match f.confidence with | JsNum.num q => q | JsNum.nan => 0)) })

/-- Warning text constants of deriveDefaultWarnings. -/
def bestellWarnung : String := "Analyse deutet auf eine Bestellbestätigung ohne Rechnung hin."

def emailWarnung : String := "Dokument wirkt wie eine E-Mail – bitte prüfen, ob ein offizieller Beleg vorliegt."

def rechnungsnummerWarnung : String := "Keine eindeutige Rechnungsnummer erkannt."

def betragWarnung : String := "Kein gültiger Bruttobetrag erkannt."

def ocrWarnung : String := "OCR-Qualität liegt unter 75 %. Felder bitte manuell prüfen."

/-- Mirrors deriveDefaultWarnings in geminiService.ts: the first three warnings
carry a keyword-presence check against the accumulated list, the last two are
appended whenever their condition holds. -/
def deriveDefaultWarnings (result : GeminiAnalysisResult) (averageConfidence : JsNum) :
    List String :=
  let warnings := result.warnings.getD []
  let warnings :=
    if result.isOrderConfirmation && !result.isInvoice
        && !(warnings.any (fun w => jsIncludes w "Bestell")) then
      warnings ++ [bestellWarnung]
    else warnings
  let warnings :=
    if result.isEmailBody && !result.isInvoice
        && !(warnings.any (fun w => jsIncludes w "E-Mail")) then
      warnings ++ [emailWarnung]
    else warnings
  let warnings :=
    if result.invoiceNumber == ""
        && !(warnings.any (fun w => jsIncludes w "Rechnungsnummer")) then
      warnings ++ [rechnungsnummerWarnung]
    else warnings
  let warnings :=
    if result.totalAmount == 0 || result.totalAmount ≤ 0 then
      warnings ++ [betragWarnung]
    else warnings
  let warnings :=
    if jsLtQ averageConfidence 75 then
      warnings ++ [ocrWarnung]
    else warnings
  warnings

/-- Value synchronization step of ensureExtendedAnalysisData: per-field values
are refreshed from the top-level result fields, confidences are untouched. -/
def synchronizeField (result : GeminiAnalysisResult) (f : OcrFieldConfidence) :
    OcrFieldConfidence :=
  if f.field == "vendor" then { f with value := jsStrOrS result.vendor "" }
  else if f.field == "invoiceNumber" then { f with value := jsStrOrS result.invoiceNumber "" }
  else if f.field == "documentDate" then { f with value := jsStrOrS result.documentDate "" }
  else if f.field == "totalAmount" then { f with value := numToFixed2Str result.totalAmount }
  else if f.field == "vatAmount" then { f with value := numToFixed2Str result.vatAmount }
  else if f.field == "invoiceType" then { f with value := invoiceTypeStr result.invoiceType }
  else if f.field == "taxCategory" then { f with value := jsStrOrS result.taxCategory "Sonstiges" }
  else f

/-- Mirrors ensureExtendedAnalysisData in geminiService.ts. -/
def ensureExtendedAnalysisData (result : GeminiAnalysisResult) : GeminiAnalysisResult :=
  let baseFields :=
    match result.fieldConfidences with
    | some fcs =>
      if 0 < fcs.length then
        fcs.map (fun f : OcrFieldConfidence =>
          { f with
            confidence := JsNum.num (clampConfidence (some f.confidence))
            confidenceDescription := some (jsStrOr f.confidenceDescription
              (describeConfidence (clampConfidence (some f.confidence)))) })
      else buildDefaultFieldConfidences result
    | none => buildDefaultFieldConfidences result
  let synchronizedFields := baseFields.map (synchronizeField result)
  let avg :=
    if 0 < synchronizedFields.length then
      jsToFixed2 (jsDivNat
        (synchronizedFields.foldl (fun acc f => jsAdd acc f.confidence) (JsNum.num 0))
        synchronizedFields.length)
    else JsNum.num (clampConfidence result.averageConfidence)
  let averageConfidence :=
    match result.averageConfidence with
    | some j => jsToFixed2 j
    | none => avg
  let warnings := deriveDefaultWarnings result averageConfidence
  { result with
    fieldConfidences := some synchronizedFields
    averageConfidence := some averageConfidence
    warnings := some warnings
    suggestedStorageLocationId :=
      some (jsStrOr result.suggestedStorageLocationId DEFAULT_DIGITAL_STORAGE_ID) }

/- Server-side document store (documentStore.ts). -/

/-- Mirrors interface StoredDocumentRecord in documentStore.ts (ISO dates kept
as strings). -/
structure StoredDocumentRecord where
  id : String
  name : String
  originalName : String
  date : String
  year : ℤ
  quarter : ℕ
  source : DocumentSource
  status : DocumentStatus
  fileUrl : String
  invoiceType : InvoiceType
  documentType : Option String
  createdAt : String
  updatedAt : String
  vendor : Option String
  totalAmount : Option ℚ
  vatAmount : Option ℚ
  invoiceNumber : Option String
  taxCategory : Option String
  tags : Option (List String)
  errorMessage : Option String
  storageLocationId : Option String
  linkedTransactionIds : Option (List String)
  textContent : Option String
  fileHash : Option String
  duplicateOfId : Option String
  duplicateIgnored : Option Bool
deriving DecidableEq, Repr

/-- Mirrors addDocument in documentStore.ts.  The generated id, the clock and
the outcome of hashing the uploaded bytes are passed in; file compression is
I/O outside the model.  Returns the new record and the new cache. -/
def addDocument (id : String) (nowIso : String) (nowYear : ℤ) (nowMonth : ℕ)
    (originalName storedFilename : String) (source : DocumentSource)
    (fileHash : Option String) (cache : List StoredDocumentRecord) :
    StoredDocumentRecord × List StoredDocumentRecord :=
  let dupMatch :=
    match fileHash with
    | some h =>
      if h != "" then
        cache.find? (fun d : StoredDocumentRecord => d.fileHash == some h && !(d.duplicateIgnored.getD false))
      else none
    | none => none
  let status :=
    match dupMatch with
    | some _ => DocumentStatus.POTENTIAL_DUPLICATE
    | none => DocumentStatus.ANALYZING
  let record : StoredDocumentRecord :=
    { id := id
      name := originalName
      originalName := originalName
      date := nowIso
      year := nowYear
      quarter := (nowMonth + 3) / 3
      source := source
      status := status
      fileUrl := "/uploads/" ++ storedFilename
      invoiceType := InvoiceType.INCOMING
      documentType := some "Unbekannt"
      createdAt := nowIso
      updatedAt := nowIso
      vendor := none
      totalAmount := none
      vatAmount := none
      invoiceNumber := none
      taxCategory := none
      tags := some []
      errorMessage := none
      storageLocationId := none
      linkedTransactionIds := some []
      textContent := none
      fileHash := fileHash
      duplicateOfId := dupMatch.map (fun d => d.id)
      duplicateIgnored := none }
  (record, cache ++ [record])

/-- Mirrors Partial of StoredDocumentRecord: every key may be absent; for
nullable fields a present key may still carry undefined. -/
structure StoredDocumentPatch where
  id : Option String := none
  name : Option String := none
  originalName : Option String := none
  date : Option String := none
  year : Option ℤ := none
  quarter : Option ℕ := none
  source : Option DocumentSource := none
  status : Option DocumentStatus := none
  fileUrl : Option String := none
  invoiceType : Option InvoiceType := none
  documentType : Option (Option String) := none
  createdAt : Option String := none
  updatedAt : Option String := none
  vendor : Option (Option String) := none
  totalAmount : Option (Option ℚ) := none
  vatAmount : Option (Option ℚ) := none
  invoiceNumber : Option (Option String) := none
  taxCategory : Option (Option String) := none
  tags : Option (Option (List String)) := none
  errorMessage : Option (Option String) := none
  storageLocationId : Option (Option String) := none
  linkedTransactionIds : Option (Option (List String)) := none
  textContent : Option (Option String) := none
  fileHash : Option (Option String) := none
  duplicateOfId : Option (Option String) := none
  duplicateIgnored : Option (Option Bool) := none
deriving DecidableEq, Repr

/-- Object spread of the patch over the record. -/
def applyPatch (d : StoredDocumentRecord) (p : StoredDocumentPatch) : StoredDocumentRecord :=
  { id := p.id.getD d.id
    name := p.name.getD d.name
    originalName := p.originalName.getD d.originalName
    date := p.date.getD d.date
    year := p.year.getD d.year
    quarter := p.quarter.getD d.quarter
    source := p.source.getD d.source
    status := p.status.getD d.status
    fileUrl := p.fileUrl.getD d.fileUrl
    invoiceType := p.invoiceType.getD d.invoiceType
    documentType := p.documentType.getD d.documentType
    createdAt := p.createdAt.getD d.createdAt
    updatedAt := p.updatedAt.getD d.updatedAt
    vendor := p.vendor.getD d.vendor
    totalAmount := p.totalAmount.getD d.totalAmount
    vatAmount := p.vatAmount.getD d.vatAmount
    invoiceNumber := p.invoiceNumber.getD d.invoiceNumber
    taxCategory := p.taxCategory.getD d.taxCategory
    tags := p.tags.getD d.tags
    errorMessage := p.errorMessage.getD d.errorMessage
    storageLocationId := p.storageLocationId.getD d.storageLocationId
    linkedTransactionIds := p.linkedTransactionIds.getD d.linkedTransactionIds
    textContent := p.textContent.getD d.textContent
    fileHash := p.fileHash.getD d.fileHash
    duplicateOfId := p.duplicateOfId.getD d.duplicateOfId
    duplicateIgnored := p.duplicateIgnored.getD d.duplicateIgnored }

/-- Models Array.findIndex (a missing match is none rather than minus one). -/
def jsFindIdxFrom (p : StoredDocumentRecord → Bool) (i : Nat) :
    List StoredDocumentRecord → Option Nat
  | [] => none
  | x :: xs => if p x then some i else jsFindIdxFrom p (i + 1) xs

/-- Mirrors updateDocument in documentStore.ts: the patch is spread over the
found record, then id and updatedAt are reimposed; a missing id leaves the
cache untouched and yields null. -/
def updateDocument (nowIso : String) (id : String) (patch : StoredDocumentPatch)
    (cache : List StoredDocumentRecord) :
    Option StoredDocumentRecord × List StoredDocumentRecord :=
  match jsFindIdxFrom (fun d : StoredDocumentRecord => d.id == id) 0 cache with
  | none => (none, cache)
  | some idx =>
    match cache[idx]? with
    | some orig =>
      let updated := { applyPatch orig patch with id := id, updatedAt := nowIso }
      (some updated, cache.set idx updated)
    | none => (none, cache)

/- Helper lemmas about the engine's index and list primitives. -/

theorem list_set_of_getElem {α : Type} (l : List α) (j : Nat) (v : α)
    (h : l[j]? = some v) : l.set j v = l := by
  induction l generalizing j with
  | nil => simp at h
  | cons x xs ih =>
    cases j with
    | zero => simp_all
    | succ n =>
      simp only [List.getElem?_cons_succ] at h
      simp [List.set, ih n h]

theorem buildIndexFrom_none_of_no_match (txs : List AccountingTransaction) (k : String)
    (h : ∀ tx ∈ txs, tx.externalId ≠ some k) : ∀ i, buildIndexFrom i txs k = none := by
  induction txs with
  | nil => intro i; rfl
  | cons tx rest ih =>
    intro i
    have hrest : ∀ t ∈ rest, t.externalId ≠ some k := fun t ht => h t (List.mem_cons_of_mem _ ht)
    have hhd := h tx (List.mem_cons_self _ _)
    simp only [buildIndexFrom, ih hrest (i + 1)]
    cases he : tx.externalId with
    | none => rfl
    | some e =>
      have : ¬ (k = e) := fun hk => hhd (by rw [he, hk])
      simp [this]

theorem buildIndexFrom_lt (txs : List AccountingTransaction) (k : String) :
    ∀ i j, buildIndexFrom i txs k = some j → i ≤ j ∧ j < i + txs.length := by
  induction txs with
  | nil => intro i j h; simp [buildIndexFrom] at h
  | cons tx rest ih =>
    intro i j h
    simp only [buildIndexFrom] at h
    split at h
    · rename_i j0 heq
      cases h
      have := ih (i + 1) j heq
      simp only [List.length_cons]
      omega
    · split at h
      · split at h
        · cases h
          simp only [List.length_cons]
          omega
        · cases h
      · cases h

theorem buildIndexFrom_get (txs : List AccountingTransaction) (k : String) :
    ∀ i j, buildIndexFrom i txs k = some j →
      ∃ tx, txs[j - i]? = some tx ∧ tx.externalId = some k ∧ k ≠ "" := by
  induction txs with
  | nil => intro i j h; simp [buildIndexFrom] at h
  | cons tx rest ih =>
    intro i j h
    simp only [buildIndexFrom] at h
    split at h
    · rename_i j0 heq
      cases h
      obtain ⟨t, hget, hext, hk⟩ := ih (i + 1) j heq
      have hb := buildIndexFrom_lt rest k (i + 1) j heq
      refine ⟨t, ?_, hext, hk⟩
      have hdiff : j - i = (j - (i + 1)) + 1 := by omega
      rw [hdiff, List.getElem?_cons_succ]
      exact hget
    · rename_i heq
      split at h
      · rename_i e hext
        split at h
        · rename_i hc
          cases h
          simp only [Bool.and_eq_true, bne_iff_ne, ne_eq, beq_iff_eq] at hc
          obtain ⟨he1, he2⟩ := hc
          refine ⟨tx, ?_, by rw [hext, he2], by rw [he2]; exact he1⟩
          simp
        · cases h
      · cases h

theorem buildIndexFrom_some_of_match (txs : List AccountingTransaction) (k : String)
    (hk : k ≠ "") (h : ∃ tx ∈ txs, tx.externalId = some k) :
    ∀ i, ∃ j, buildIndexFrom i txs k = some j := by
  induction txs with
  | nil => obtain ⟨tx, htx, _⟩ := h; cases htx
  | cons tx rest ih =>
    intro i
    by_cases hrest : ∃ t ∈ rest, t.externalId = some k
    · obtain ⟨j, hj⟩ := ih hrest (i + 1)
      exact ⟨j, by simp [buildIndexFrom, hj]⟩
    · have hnone : ∀ t ∈ rest, t.externalId ≠ some k := by
        intro t ht hc
        exact hrest ⟨t, ht, hc⟩
      have hhd : tx.externalId = some k := by
        obtain ⟨t, htm, hte⟩ := h
        rcases List.mem_cons.mp htm with heq | hmem
        · rw [← heq]; exact hte
        · exact absurd hte (hnone t hmem)
      refine ⟨i, ?_⟩
      simp [buildIndexFrom, buildIndexFrom_none_of_no_match rest k hnone (i + 1), hhd, hk]

theorem buildIndexFrom_congr (l1 : List AccountingTransaction) :
    ∀ (l2 : List AccountingTransaction),
      l1.map (fun t => t.externalId) = l2.map (fun t => t.externalId) →
      ∀ (k : String) (i : Nat), buildIndexFrom i l1 k = buildIndexFrom i l2 k := by
  induction l1 with
  | nil =>
    intro l2 h k i
    cases l2 with
    | nil => rfl
    | cons y ys => simp at h
  | cons x xs ih =>
    intro l2 h k i
    cases l2 with
    | nil => simp at h
    | cons y ys =>
      simp only [List.map_cons, List.cons.injEq] at h
      simp only [buildIndexFrom, ih ys h.2 k (i + 1), h.1]

theorem buildIndexFrom_append (l1 l2 : List AccountingTransaction) (k : String) :
    ∀ i, buildIndexFrom i (l1 ++ l2) k =
      match buildIndexFrom (i + l1.length) l2 k with
      | some j => some j
      | none => buildIndexFrom i l1 k := by
  induction l1 with
  | nil =>
    intro i
    simp only [List.nil_append, List.length_nil, Nat.add_zero]
    cases buildIndexFrom i l2 k with
    | some j => rfl
    | none => rfl
  | cons x xs ih =>
    intro i
    rw [List.cons_append]
    simp only [buildIndexFrom, List.length_cons]
    rw [ih (i + 1)]
    have harith : i + 1 + xs.length = i + (xs.length + 1) := by omega
    rw [harith]
    cases buildIndexFrom (i + (xs.length + 1)) l2 k with
    | some j => rfl
    | none =>
      cases buildIndexFrom (i + 1) xs k with
      | some j => rfl
      | none => rfl

/- Loop invariants of the reconciliation engine. -/

theorem upsertStep_spec (index : String → Option Nat) (linked : String → Option String)
    (now : Nat) (n : Nat) (hidx : ∀ k j, index k = some j → j < n)
    (s : UpsertResult) (p : LexofficeTransactionPayload)
    (hn : n ≤ s.updatedTransactions.length) :
    (upsertStep index linked now s p).skipped = s.skipped ∧
    (upsertStep index linked now s p).imported + (upsertStep index linked now s p).updated =
      s.imported + s.updated + 1 ∧
    n ≤ (upsertStep index linked now s p).updatedTransactions.length ∧
    ((upsertStep index linked now s p).updatedTransactions.map (fun t => t.id)).take n =
      (s.updatedTransactions.map (fun t => t.id)).take n := by
  have hmapn : n ≤ (s.updatedTransactions.map (fun t => t.id)).length := by
    rw [List.length_map]; exact hn
  cases hix : index p.id with
  | some j =>
    have hj : j < n := hidx p.id j hix
    have hjl : j < s.updatedTransactions.length := lt_of_lt_of_le hj hn
    have hget : s.updatedTransactions[j]? = some s.updatedTransactions[j] :=
      List.getElem?_eq_getElem hjl
    simp only [upsertStep, hix, hget]
    refine ⟨by trivial, by omega, ?_, ?_⟩
    · simp only [List.length_set]; exact hn
    · rw [List.map_set]
      refine congrArg (List.take n) (list_set_of_getElem _ j _ ?_)
      rw [List.getElem?_map, hget]
      rfl
  | none =>
    simp only [upsertStep, hix]
    refine ⟨by trivial, by omega, ?_, ?_⟩
    · rw [List.length_append]
      exact le_trans hn (Nat.le_add_right _ _)
    · rw [List.map_append, List.take_append_of_le_length hmapn]

theorem upsertLoop_spec (index : String → Option Nat) (linked : String → Option String)
    (now : Nat) (n : Nat) (hidx : ∀ k j, index k = some j → j < n) :
    ∀ (incoming : List LexofficeTransactionPayload) (s : UpsertResult),
      n ≤ s.updatedTransactions.length →
      (incoming.foldl (upsertStep index linked now) s).skipped = s.skipped ∧
      (incoming.foldl (upsertStep index linked now) s).imported +
        (incoming.foldl (upsertStep index linked now) s).updated =
        s.imported + s.updated + incoming.length ∧
      n ≤ (incoming.foldl (upsertStep index linked now) s).updatedTransactions.length ∧
      ((incoming.foldl (upsertStep index linked now) s).updatedTransactions.map
        (fun t => t.id)).take n = (s.updatedTransactions.map (fun t => t.id)).take n := by
  intro incoming
  induction incoming with
  | nil => intro s hn; exact ⟨rfl, by simp, hn, rfl⟩
  | cons p ps ih =>
    intro s hn
    obtain ⟨h1, h2, h3, h4⟩ := upsertStep_spec index linked now n hidx s p hn
    obtain ⟨g1, g2, g3, g4⟩ := ih (upsertStep index linked now s p) h3
    simp only [List.foldl_cons]
    refine ⟨by rw [g1, h1], ?_, g3, by rw [g4, h4]⟩
    rw [g2, h2]
    simp only [List.length_cons]
    omega

/-- C6: on every reconciliation-engine call each incoming payload produces
exactly one insert or one update and none is dropped: skipped is 0, imported
plus updated equals the number of incoming payloads, and every pre-existing
transaction is still present in the output list (its id is kept at its
position; the engine is additive or corrective, never destructive). -/
theorem c6_engine_additive_total (incoming : List LexofficeTransactionPayload)
    (existing : List AccountingTransaction) (linked : String → Option String) (now : Nat) :
    (upsertTransactionsFromLexoffice incoming existing linked now).skipped = 0 ∧
    (upsertTransactionsFromLexoffice incoming existing linked now).imported +
      (upsertTransactionsFromLexoffice incoming existing linked now).updated =
      incoming.length ∧
    ((upsertTransactionsFromLexoffice incoming existing linked now).updatedTransactions.map
      (fun t => t.id)).take existing.length = existing.map (fun t => t.id) := by
  have hidx : ∀ k j, indexByExternalId existing k = some j → j < existing.length := by
    intro k j h
    have := buildIndexFrom_lt existing k 0 j h
    omega
  obtain ⟨h1, h2, h3, h4⟩ := upsertLoop_spec (indexByExternalId existing) linked now
    existing.length hidx incoming
    { updatedTransactions := existing, notifications := [], imported := 0, updated := 0,
      skipped := 0, missingReceipts := 0 } (le_refl _)
  refine ⟨h1, by simpa using h2, ?_⟩
  have h5 : ((existing.map (fun t => t.id)).take existing.length) = existing.map (fun t => t.id) := by
    rw [← List.length_map existing (fun t => t.id)]
    exact List.take_length _
  exact h4.trans h5

/-- C9: when the same externalId occurs in two payloads of one incoming batch
and no pre-existing transaction carries it, the engine inserts two separate
records that share the identical local id tx- followed by that externalId, and
reports imported equal to 2, since the index is built once up front. -/
theorem c9_duplicate_batch_double_insert (e : String) (p1 p2 : LexofficeTransactionPayload)
    (existing : List AccountingTransaction) (linked : String → Option String) (now : Nat)
    (h1 : p1.id = e) (h2 : p2.id = e)
    (hex : ∀ t ∈ existing, t.externalId ≠ some e) :
    (upsertTransactionsFromLexoffice [p1, p2] existing linked now).imported = 2 ∧
    (upsertTransactionsFromLexoffice [p1, p2] existing linked now).updated = 0 ∧
    (upsertTransactionsFromLexoffice [p1, p2] existing linked now).updatedTransactions.map
      (fun t => t.id) =
      existing.map (fun t => t.id) ++ ["tx-" ++ e, "tx-" ++ e] := by
  have hix1 : indexByExternalId existing p1.id = none := by
    rw [h1]; exact buildIndexFrom_none_of_no_match existing e hex 0
  have hix2 : indexByExternalId existing p2.id = none := by
    rw [h2]; exact buildIndexFrom_none_of_no_match existing e hex 0
  simp only [upsertTransactionsFromLexoffice, List.foldl_cons, List.foldl_nil]
  simp only [upsertStep, hix1, hix2]
  refine ⟨by trivial, by trivial, ?_⟩
  simp [h1, h2, List.append_assoc]

theorem filter_length_set {α : Type} (p : α → Bool) (l : List α) (j : Nat) (u v : α)
    (hget : l[j]? = some u) (hpv : p u = p v) :
    ((l.set j v).filter p).length = (l.filter p).length := by
  induction l generalizing j with
  | nil => simp at hget
  | cons x xs ih =>
    cases j with
    | zero =>
      simp only [List.getElem?_cons_zero, Option.some.injEq] at hget
      subst hget
      show ((v :: xs).filter p).length = ((x :: xs).filter p).length
      simp only [List.filter_cons, ← hpv]
      cases hpx : p x <;> simp [hpx]
    | succ n =>
      simp only [List.getElem?_cons_succ] at hget
      show ((x :: xs.set n v).filter p).length = ((x :: xs).filter p).length
      simp only [List.filter_cons]
      cases hpx : p x <;> simp [hpx, ih n hget]

theorem upsert_single_insert (p : LexofficeTransactionPayload)
    (existing : List AccountingTransaction) (linked : String → Option String) (now : Nat)
    (hix : indexByExternalId existing p.id = none) :
    ∃ ntx : AccountingTransaction,
      (upsertTransactionsFromLexoffice [p] existing linked now).updatedTransactions =
        existing ++ [ntx] ∧
      ntx.externalId = some p.id ∧
      (upsertTransactionsFromLexoffice [p] existing linked now).imported = 1 ∧
      (upsertTransactionsFromLexoffice [p] existing linked now).updated = 0 := by
  simp only [upsertTransactionsFromLexoffice, List.foldl_cons, List.foldl_nil, upsertStep, hix]
  refine ⟨_, rfl, rfl, by trivial, by trivial⟩

theorem upsert_single_update (p : LexofficeTransactionPayload)
    (existing : List AccountingTransaction) (linked : String → Option String) (now : Nat)
    (j : Nat) (hix : indexByExternalId existing p.id = some j) :
    ∃ u v : AccountingTransaction, existing[j]? = some u ∧
      (upsertTransactionsFromLexoffice [p] existing linked now).updatedTransactions =
        existing.set j v ∧
      v.externalId = u.externalId ∧
      (upsertTransactionsFromLexoffice [p] existing linked now).updated = 1 ∧
      (upsertTransactionsFromLexoffice [p] existing linked now).imported = 0 := by
  have hjl : j < existing.length := by
    have := buildIndexFrom_lt existing p.id 0 j hix
    omega
  have hget : existing[j]? = some existing[j] := List.getElem?_eq_getElem hjl
  simp only [upsertTransactionsFromLexoffice, List.foldl_cons, List.foldl_nil, upsertStep,
    hix, hget]
  refine ⟨existing[j], _, rfl, rfl, rfl, by trivial, by trivial⟩

/-- C2 (amended): for a payload whose externalId is nonempty, importing it and
then importing it again over the resulting list leaves exactly one transaction
with that externalId (provided the initial list did not already contain several
such duplicates), and the second call reports updated equal to 1 and imported
equal to 0. -/
theorem c2_amended_idempotent_reimport (p : LexofficeTransactionPayload)
    (existing : List AccountingTransaction) (linked1 linked2 : String → Option String)
    (now1 now2 : Nat) (hid : p.id ≠ "")
    (hcount : (existing.filter (fun t => t.externalId == some p.id)).length ≤ 1) :
    ((upsertTransactionsFromLexoffice [p]
        (upsertTransactionsFromLexoffice [p] existing linked1 now1).updatedTransactions
        linked2 now2).updatedTransactions.filter
      (fun t => t.externalId == some p.id)).length = 1 ∧
    (upsertTransactionsFromLexoffice [p]
      (upsertTransactionsFromLexoffice [p] existing linked1 now1).updatedTransactions
      linked2 now2).updated = 1 ∧
    (upsertTransactionsFromLexoffice [p]
      (upsertTransactionsFromLexoffice [p] existing linked1 now1).updatedTransactions
      linked2 now2).imported = 0 := by
  rcases Nat.le_one_iff_eq_zero_or_eq_one.mp hcount with hc0 | hc1
  · have hfe : existing.filter (fun t => t.externalId == some p.id) = [] :=
      List.length_eq_zero.mp hc0
    have hnone : ∀ t ∈ existing, t.externalId ≠ some p.id := by
      intro t ht hcon
      have hmem : t ∈ existing.filter (fun t => t.externalId == some p.id) :=
        List.mem_filter.mpr ⟨ht, by simp [hcon]⟩
      rw [hfe] at hmem
      cases hmem
    have hix1 : indexByExternalId existing p.id = none :=
      buildIndexFrom_none_of_no_match existing p.id hnone 0
    obtain ⟨ntx, htxs1, hext, him1, hupd1⟩ := upsert_single_insert p existing linked1 now1 hix1
    have hix2 : indexByExternalId
        (upsertTransactionsFromLexoffice [p] existing linked1 now1).updatedTransactions p.id =
        some existing.length := by
      rw [htxs1]
      show buildIndexFrom 0 (existing ++ [ntx]) p.id = some existing.length
      rw [buildIndexFrom_append existing [ntx] p.id 0]
      simp [buildIndexFrom, hext, hid]
    obtain ⟨u, v, hgetu, htxs2, hvext, hupd2, him2⟩ :=
      upsert_single_update p _ linked2 now2 existing.length hix2
    refine ⟨?_, hupd2, him2⟩
    rw [htxs2]
    rw [filter_length_set (fun t => t.externalId == some p.id) _ existing.length u v hgetu
      (by simp [hvext])]
    rw [htxs1, List.filter_append, hfe]
    simp [List.filter_cons, hext]
  · obtain ⟨a, ha⟩ := List.length_eq_one.mp hc1
    have hamem : a ∈ existing.filter (fun t => t.externalId == some p.id) := by
      rw [ha]; exact List.mem_cons_self _ _
    obtain ⟨haim, hap⟩ := List.mem_filter.mp hamem
    have haext : a.externalId = some p.id := by simpa using hap
    obtain ⟨j, hj⟩ := buildIndexFrom_some_of_match existing p.id hid ⟨a, haim, haext⟩ 0
    have hj' : indexByExternalId existing p.id = some j := hj
    obtain ⟨u, v, hgetu, htxs1, hvext, hupd1, him1⟩ :=
      upsert_single_update p existing linked1 now1 j hj'
    have hcset : ((existing.set j v).filter (fun t => t.externalId == some p.id)).length = 1 := by
      rw [filter_length_set (fun t => t.externalId == some p.id) existing j u v hgetu
        (by simp [hvext])]
      exact hc1
    have hmapeq : ((existing.set j v).map (fun t => t.externalId)) =
        existing.map (fun t => t.externalId) := by
      rw [List.map_set]
      apply list_set_of_getElem
      rw [List.getElem?_map, hgetu]
      simp [hvext]
    have hix2 : indexByExternalId (existing.set j v) p.id = some j := by
      show buildIndexFrom 0 (existing.set j v) p.id = some j
      rw [buildIndexFrom_congr (existing.set j v) existing hmapeq p.id 0]
      exact hj
    obtain ⟨u2, v2, hgetu2, htxs2, hvext2, hupd2, him2⟩ :=
      upsert_single_update p (existing.set j v) linked2 now2 j hix2
    refine ⟨?_, ?_, ?_⟩
    · rw [htxs1, htxs2]
      rw [filter_length_set (fun t => t.externalId == some p.id) _ j u2 v2 hgetu2
        (by simp [hvext2])]
      exact hcset
    · rw [htxs1]; exact hupd2
    · rw [htxs1]; exact him2

/- Concrete sample values used by witnesses and counterexamples. -/

/-- Sample payload with externalId A. -/
def samplePayloadA : LexofficeTransactionPayload :=
  { id := "A", description := "Buchung", amount := 5, date := 0,
    invoiceType := InvoiceType.INCOMING, taxCategory := "Sonstiges", invoiceNumber := none,
    hasDocument := false, voucherId := none, fileIds := none, vendor := none }

/-- Sample payload with an empty externalId. -/
def samplePayloadEmptyId : LexofficeTransactionPayload := { samplePayloadA with id := "" }

/-- Empty invoice-number lookup map. -/
def emptyLinked : String → Option String := fun _ => none

/-- C2 (counterexample): for the payload whose externalId is the empty string,
importing it twice inserts twice — the second call reports imported 1 and
updated 0 and the final list holds two transactions with that externalId —
because an empty externalId is falsy and never enters the index. -/
theorem c2_counterexample_empty_externalId :
    ((upsertTransactionsFromLexoffice [samplePayloadEmptyId]
        (upsertTransactionsFromLexoffice [samplePayloadEmptyId] [] emptyLinked
          0).updatedTransactions
        emptyLinked 0).updatedTransactions.filter
      (fun t => t.externalId == some samplePayloadEmptyId.id)).length = 2 ∧
    (upsertTransactionsFromLexoffice [samplePayloadEmptyId]
      (upsertTransactionsFromLexoffice [samplePayloadEmptyId] [] emptyLinked
        0).updatedTransactions
      emptyLinked 0).updated = 0 ∧
    (upsertTransactionsFromLexoffice [samplePayloadEmptyId]
      (upsertTransactionsFromLexoffice [samplePayloadEmptyId] [] emptyLinked
        0).updatedTransactions
      emptyLinked 0).imported = 1 := by
  decide

/-- Witness for the amended C2 theorem at a concrete input. -/
theorem c2_amended_idempotent_reimport_witness :
    (samplePayloadA.id ≠ "" ∧
      (([] : List AccountingTransaction).filter
        (fun t => t.externalId == some samplePayloadA.id)).length ≤ 1) ∧
    (((upsertTransactionsFromLexoffice [samplePayloadA]
        (upsertTransactionsFromLexoffice [samplePayloadA] [] emptyLinked 0).updatedTransactions
        emptyLinked 0).updatedTransactions.filter
      (fun t => t.externalId == some samplePayloadA.id)).length = 1 ∧
    (upsertTransactionsFromLexoffice [samplePayloadA]
      (upsertTransactionsFromLexoffice [samplePayloadA] [] emptyLinked 0).updatedTransactions
      emptyLinked 0).updated = 1 ∧
    (upsertTransactionsFromLexoffice [samplePayloadA]
      (upsertTransactionsFromLexoffice [samplePayloadA] [] emptyLinked 0).updatedTransactions
      emptyLinked 0).imported = 0) :=
  ⟨⟨by decide, by decide⟩,
    c2_amended_idempotent_reimport samplePayloadA [] emptyLinked emptyLinked 0 0
      (by decide) (by decide)⟩

/-- Witness for the C9 theorem at a concrete input. -/
theorem c9_duplicate_batch_double_insert_witness :
    (samplePayloadA.id = "A" ∧
      ∀ t ∈ ([] : List AccountingTransaction), t.externalId ≠ some "A") ∧
    ((upsertTransactionsFromLexoffice [samplePayloadA, samplePayloadA] [] emptyLinked 0).imported
        = 2 ∧
    (upsertTransactionsFromLexoffice [samplePayloadA, samplePayloadA] [] emptyLinked 0).updated
        = 0 ∧
    (upsertTransactionsFromLexoffice [samplePayloadA, samplePayloadA] [] emptyLinked
        0).updatedTransactions.map (fun t => t.id) =
      ([] : List AccountingTransaction).map (fun t => t.id) ++ ["tx-" ++ "A", "tx-" ++ "A"]) :=
  ⟨⟨rfl, by simp⟩,
    c9_duplicate_batch_double_insert "A" samplePayloadA samplePayloadA [] emptyLinked 0
      rfl rfl (by simp)⟩

theorem jsFindIdxFrom_none (p : StoredDocumentRecord → Bool) (l : List StoredDocumentRecord)
    (h : ∀ x ∈ l, p x = false) : ∀ i, jsFindIdxFrom p i l = none := by
  induction l with
  | nil => intro i; rfl
  | cons x xs ih =>
    intro i
    have hx := h x (List.mem_cons_self _ _)
    simp only [jsFindIdxFrom, hx, Bool.false_eq_true, reduceIte]
    exact ih (fun y hy => h y (List.mem_cons_of_mem _ hy)) (i + 1)

theorem jsFindIdxFrom_some (p : StoredDocumentRecord → Bool) (l : List StoredDocumentRecord) :
    ∀ i j, jsFindIdxFrom p i l = some j →
      i ≤ j ∧ ∃ d, l[j - i]? = some d ∧ p d = true := by
  induction l with
  | nil => intro i j h; cases h
  | cons x xs ih =>
    intro i j h
    simp only [jsFindIdxFrom] at h
    by_cases hp : p x = true
    · rw [if_pos hp] at h
      cases h
      exact ⟨le_refl _, x, by simp, hp⟩
    · rw [if_neg hp] at h
      obtain ⟨hle, d, hget, hpd⟩ := ih (i + 1) j h
      refine ⟨by omega, d, ?_, hpd⟩
      have hdiff : j - i = (j - (i + 1)) + 1 := by omega
      rw [hdiff, List.getElem?_cons_succ]
      exact hget

/-- C10: updateDocument never changes a document's identity: whatever the
patch contains (including a different id), the stored record keeps the looked-up
id while updatedAt is refreshed to the current clock; the set of stored ids is
unchanged; and when no document with the given id exists the call returns null
and leaves the store untouched. -/
theorem c10_updateDocument_frame (nowIso id : String) (patch : StoredDocumentPatch)
    (cache : List StoredDocumentRecord) :
    ((∀ d ∈ cache, d.id ≠ id) → updateDocument nowIso id patch cache = (none, cache)) ∧
    ((updateDocument nowIso id patch cache).1 = none →
      (updateDocument nowIso id patch cache).2 = cache) ∧
    (∀ rec, (updateDocument nowIso id patch cache).1 = some rec →
      rec.id = id ∧ rec.updatedAt = nowIso ∧
      (updateDocument nowIso id patch cache).2.map (fun d => d.id) =
        cache.map (fun d => d.id)) := by
  cases hfi : jsFindIdxFrom (fun d : StoredDocumentRecord => d.id == id) 0 cache with
  | none =>
    refine ⟨fun _ => ?_, fun _ => ?_, fun rec hrec => ?_⟩
    · simp only [updateDocument, hfi]
    · simp only [updateDocument, hfi]
    · simp only [updateDocument, hfi] at hrec
      cases hrec
  | some idx =>
    obtain ⟨hle, d, hget0, hpd⟩ := jsFindIdxFrom_some _ cache 0 idx hfi
    rw [Nat.sub_zero] at hget0
    have hdid : d.id = id := by simpa using hpd
    have hdmem : d ∈ cache := by
      have := List.getElem?_eq_some.mp hget0
      obtain ⟨hlt, hEq⟩ := this
      exact hEq ▸ List.getElem_mem hlt
    refine ⟨fun hno => absurd hdid (hno d hdmem), fun hcontra => ?_, fun rec hrec => ?_⟩
    · simp only [updateDocument, hfi, hget0] at hcontra
      cases hcontra
    · simp only [updateDocument, hfi, hget0] at hrec
      cases hrec
      refine ⟨rfl, rfl, ?_⟩
      simp only [updateDocument, hfi, hget0]
      rw [List.map_set]
      apply list_set_of_getElem
      rw [List.getElem?_map, hget0]
      simp [hdid]

/-- Match predicate of the duplicate-hash lookup in addDocument. -/
def hashMatch (h : String) (d : StoredDocumentRecord) : Bool :=
  d.fileHash == some h && !(d.duplicateIgnored.getD false)

theorem addDocument_no_match (id nowIso : String) (ny : ℤ) (nm : ℕ)
    (origName storedName : String) (src : DocumentSource) (h : String)
    (cache : List StoredDocumentRecord) (hne : h ≠ "")
    (hfind : cache.find? (fun d : StoredDocumentRecord =>
      d.fileHash == some h && !(d.duplicateIgnored.getD false)) = none) :
    (addDocument id nowIso ny nm origName storedName src (some h) cache).1.status =
      DocumentStatus.ANALYZING ∧
    (addDocument id nowIso ny nm origName storedName src (some h) cache).1.duplicateOfId = none ∧
    (addDocument id nowIso ny nm origName storedName src (some h) cache).1.id = id ∧
    (addDocument id nowIso ny nm origName storedName src (some h) cache).1.fileHash = some h ∧
    (addDocument id nowIso ny nm origName storedName src (some h) cache).1.duplicateIgnored
      = none ∧
    (addDocument id nowIso ny nm origName storedName src (some h) cache).2 =
      cache ++ [(addDocument id nowIso ny nm origName storedName src (some h) cache).1] := by
  have hb : (h != "") = true := by simpa using hne
  simp only [addDocument, hb, if_true, hfind]
  refine ⟨by trivial, by trivial, by trivial, by trivial, by trivial, by trivial⟩

theorem addDocument_match (id nowIso : String) (ny : ℤ) (nm : ℕ)
    (origName storedName : String) (src : DocumentSource) (h : String)
    (cache : List StoredDocumentRecord) (hne : h ≠ "") (m : StoredDocumentRecord)
    (hfind : cache.find? (fun d : StoredDocumentRecord =>
      d.fileHash == some h && !(d.duplicateIgnored.getD false)) = some m) :
    (addDocument id nowIso ny nm origName storedName src (some h) cache).1.status =
      DocumentStatus.POTENTIAL_DUPLICATE ∧
    (addDocument id nowIso ny nm origName storedName src (some h) cache).1.duplicateOfId =
      some m.id ∧
    (addDocument id nowIso ny nm origName storedName src (some h) cache).1.id = id ∧
    (addDocument id nowIso ny nm origName storedName src (some h) cache).1.fileHash = some h ∧
    (addDocument id nowIso ny nm origName storedName src (some h) cache).1.duplicateIgnored
      = none ∧
    (addDocument id nowIso ny nm origName storedName src (some h) cache).2 =
      cache ++ [(addDocument id nowIso ny nm origName storedName src (some h) cache).1] := by
  have hb : (h != "") = true := by simpa using hne
  simp only [addDocument, hb, if_true, hfind]
  refine ⟨by trivial, by trivial, by trivial, by trivial, by trivial, by trivial⟩

/-- C5: with a computed content hash h (nonempty, as a hex digest always is)
matching no document in the starting cache, uploading the same bytes three
times gives: a first record in the normal post-upload status ANALYZING with no
duplicate flag, a second flagged POTENTIAL_DUPLICATE against the first, and a
third flagged against the first match found, not chained to the second. -/
theorem c5_duplicate_hash_flags_first (cache0 : List StoredDocumentRecord) (h : String)
    (hne : h ≠ "") (hno : ∀ d ∈ cache0, d.fileHash ≠ some h)
    (id1 id2 id3 nowIso : String) (ny : ℤ) (nm : ℕ)
    (n1 s1 n2 s2 n3 s3 : String) (src : DocumentSource) :
    (addDocument id1 nowIso ny nm n1 s1 src (some h) cache0).1.status =
      DocumentStatus.ANALYZING ∧
    (addDocument id1 nowIso ny nm n1 s1 src (some h) cache0).1.duplicateOfId = none ∧
    (addDocument id2 nowIso ny nm n2 s2 src (some h)
      (addDocument id1 nowIso ny nm n1 s1 src (some h) cache0).2).1.status =
      DocumentStatus.POTENTIAL_DUPLICATE ∧
    (addDocument id2 nowIso ny nm n2 s2 src (some h)
      (addDocument id1 nowIso ny nm n1 s1 src (some h) cache0).2).1.duplicateOfId = some id1 ∧
    (addDocument id3 nowIso ny nm n3 s3 src (some h)
      (addDocument id2 nowIso ny nm n2 s2 src (some h)
        (addDocument id1 nowIso ny nm n1 s1 src (some h) cache0).2).2).1.status =
      DocumentStatus.POTENTIAL_DUPLICATE ∧
    (addDocument id3 nowIso ny nm n3 s3 src (some h)
      (addDocument id2 nowIso ny nm n2 s2 src (some h)
        (addDocument id1 nowIso ny nm n1 s1 src (some h) cache0).2).2).1.duplicateOfId =
      some id1 := by
  have hf0 : cache0.find? (fun d : StoredDocumentRecord =>
      d.fileHash == some h && !(d.duplicateIgnored.getD false)) = none := by
    apply List.find?_eq_none.mpr
    intro d hd
    simp [hno d hd]
  obtain ⟨hst1, hdup1, hid1, hfh1, hig1, hc1⟩ :=
    addDocument_no_match id1 nowIso ny nm n1 s1 src h cache0 hne hf0
  have hpred1 : (fun d : StoredDocumentRecord =>
      d.fileHash == some h && !(d.duplicateIgnored.getD false))
      (addDocument id1 nowIso ny nm n1 s1 src (some h) cache0).1 = true := by
    simp [hfh1, hig1]
  have hf1 : ((addDocument id1 nowIso ny nm n1 s1 src (some h) cache0).2).find?
      (fun d : StoredDocumentRecord =>
        d.fileHash == some h && !(d.duplicateIgnored.getD false)) =
      some (addDocument id1 nowIso ny nm n1 s1 src (some h) cache0).1 := by
    rw [hc1, List.find?_append, hf0]
    simp only [Option.none_or]
    simp [List.find?_cons, hpred1]
  obtain ⟨hst2, hdup2, hid2, hfh2, hig2, hc2⟩ :=
    addDocument_match id2 nowIso ny nm n2 s2 src h _ hne _ hf1
  have hf2 : ((addDocument id2 nowIso ny nm n2 s2 src (some h)
      (addDocument id1 nowIso ny nm n1 s1 src (some h) cache0).2).2).find?
      (fun d : StoredDocumentRecord =>
        d.fileHash == some h && !(d.duplicateIgnored.getD false)) =
      some (addDocument id1 nowIso ny nm n1 s1 src (some h) cache0).1 := by
    rw [hc2, List.find?_append, hf1]
    rfl
  obtain ⟨hst3, hdup3, hid3, hfh3, hig3, hc3⟩ :=
    addDocument_match id3 nowIso ny nm n3 s3 src h _ hne _ hf2
  rw [hid1] at hdup2 hdup3
  exact ⟨hst1, hdup1, hst2, hdup2, hst3, hdup3⟩

/-- Sample stored document record. -/
def sampleStoredDoc : StoredDocumentRecord :=
  { id := "doc-1", name := "a.pdf", originalName := "a.pdf", date := "2024-01-01",
    year := 2024, quarter := 1, source := DocumentSource.MANUAL,
    status := DocumentStatus.ANALYZING, fileUrl := "/uploads/a.pdf",
    invoiceType := InvoiceType.INCOMING, documentType := some "Unbekannt",
    createdAt := "2024-01-01", updatedAt := "2024-01-01", vendor := none, totalAmount := none,
    vatAmount := none, invoiceNumber := none, taxCategory := none, tags := some [],
    errorMessage := none, storageLocationId := none, linkedTransactionIds := some [],
    textContent := none, fileHash := none, duplicateOfId := none, duplicateIgnored := none }

/-- Sample patch that tries to overwrite the record id. -/
def c10patch : StoredDocumentPatch := { id := some "doc-OTHER" }

/-- Witness for the C10 theorem at a concrete input: a patch carrying a foreign
id still leaves the stored identity untouched while updatedAt is refreshed. -/
theorem c10_updateDocument_frame_witness :
    ((updateDocument "NOW" "doc-1" c10patch [sampleStoredDoc]).1 =
      some { applyPatch sampleStoredDoc c10patch with id := "doc-1", updatedAt := "NOW" }) ∧
    ({ applyPatch sampleStoredDoc c10patch with id := "doc-1", updatedAt := "NOW" }.id = "doc-1" ∧
     { applyPatch sampleStoredDoc c10patch with
        id := "doc-1", updatedAt := "NOW" }.updatedAt = "NOW" ∧
     (updateDocument "NOW" "doc-1" c10patch [sampleStoredDoc]).2.map (fun d => d.id) =
       [sampleStoredDoc].map (fun d => d.id)) :=
  ⟨rfl, (c10_updateDocument_frame "NOW" "doc-1" c10patch [sampleStoredDoc]).2.2 _ rfl⟩

/-- Witness for the C5 theorem at a concrete input. -/
theorem c5_duplicate_hash_flags_first_witness :
    (("H" : String) ≠ "" ∧ ∀ d ∈ ([] : List StoredDocumentRecord), d.fileHash ≠ some "H") ∧
    ((addDocument "id1" "NOW" 2024 0 "a" "fa" DocumentSource.MANUAL (some "H") []).1.status =
      DocumentStatus.ANALYZING ∧
    (addDocument "id1" "NOW" 2024 0 "a" "fa" DocumentSource.MANUAL
      (some "H") []).1.duplicateOfId = none ∧
    (addDocument "id2" "NOW" 2024 0 "b" "fb" DocumentSource.MANUAL (some "H")
      (addDocument "id1" "NOW" 2024 0 "a" "fa" DocumentSource.MANUAL
        (some "H") []).2).1.status = DocumentStatus.POTENTIAL_DUPLICATE ∧
    (addDocument "id2" "NOW" 2024 0 "b" "fb" DocumentSource.MANUAL (some "H")
      (addDocument "id1" "NOW" 2024 0 "a" "fa" DocumentSource.MANUAL
        (some "H") []).2).1.duplicateOfId = some "id1" ∧
    (addDocument "id3" "NOW" 2024 0 "c" "fc" DocumentSource.MANUAL (some "H")
      (addDocument "id2" "NOW" 2024 0 "b" "fb" DocumentSource.MANUAL (some "H")
        (addDocument "id1" "NOW" 2024 0 "a" "fa" DocumentSource.MANUAL
          (some "H") []).2).2).1.status = DocumentStatus.POTENTIAL_DUPLICATE ∧
    (addDocument "id3" "NOW" 2024 0 "c" "fc" DocumentSource.MANUAL (some "H")
      (addDocument "id2" "NOW" 2024 0 "b" "fb" DocumentSource.MANUAL (some "H")
        (addDocument "id1" "NOW" 2024 0 "a" "fa" DocumentSource.MANUAL
          (some "H") []).2).2).1.duplicateOfId = some "id1") :=
  ⟨⟨by decide, by simp⟩,
    c5_duplicate_hash_flags_first [] "H" (by decide) (by simp) "id1" "id2" "id3" "NOW" 2024 0
      "a" "fa" "b" "fb" "c" "fc" DocumentSource.MANUAL⟩

/-- Whether an optional documentId names a document in the given id list. -/
def docIdPresentB (ids : List String) : Option String → Bool
  | some d => ids.contains d
  | none => false

/-- Sample client-side document with id D1. -/
def sampleDocD1 : AppDocument :=
  { id := "D1", name := "doc", date := 0, year := 2024, quarter := 1,
    source := DocumentSource.MANUAL, status := DocumentStatus.OK, fileUrl := "/u",
    textContent := none, vendor := none, totalAmount := none, vatAmount := none,
    invoiceNumber := none, invoiceType := InvoiceType.INCOMING, taxCategory := none,
    lexoffice := none, errorMessage := none, storageLocationId := none, tags := none,
    linkedTransactionIds := none, ocrMetadata := none }

/-- Sample transaction already linked to D1 and COMPLETE, sourced from
externalId A. -/
def sampleTxComplete : AccountingTransaction :=
  { id := "t1", externalId := some "A", date := 0, description := "alt", amount := 1,
    invoiceType := InvoiceType.INCOMING, taxCategory := "Sonstiges",
    documentId := some "D1", status := TransactionStatus.COMPLETE,
    source := TransactionSource.MANUAL, notes := none, createdAt := 0, updatedAt := 0 }

/-- C1 (counterexample): one engine call re-importing externalId A without an
invoice-number link, followed by both synchronizer passes, leaves a transaction
whose documentId still names the present document D1 while its status is
MISSING_RECEIPT — the claimed equivalence fails in the right-to-left
direction. -/
theorem c1_counterexample_reimport_keeps_link :
    ¬ (∀ t ∈ syncTransactionsWithDocuments 99 [sampleDocD1]
          (upsertTransactionsFromLexoffice [samplePayloadA] [sampleTxComplete] emptyLinked
            99).updatedTransactions,
        (t.status = TransactionStatus.COMPLETE ↔
          docIdPresentB (documentIds (syncDocumentsWithTransactions [sampleDocD1]
            (syncTransactionsWithDocuments 99 [sampleDocD1]
              (upsertTransactionsFromLexoffice [samplePayloadA] [sampleTxComplete] emptyLinked
                99).updatedTransactions))) t.documentId = true)) := by
  decide

theorem upsertStep_complete_truthy (index : String → Option Nat)
    (linked : String → Option String) (now : Nat) (s : UpsertResult)
    (p : LexofficeTransactionPayload)
    (hs : ∀ t ∈ s.updatedTransactions,
      t.status = TransactionStatus.COMPLETE → strTruthy t.documentId = true) :
    ∀ t ∈ (upsertStep index linked now s p).updatedTransactions,
      t.status = TransactionStatus.COMPLETE → strTruthy t.documentId = true := by
  have hnew : ∀ (docId : Option String) (old : Option String),
      (if strTruthy docId then TransactionStatus.COMPLETE
        else TransactionStatus.MISSING_RECEIPT) = TransactionStatus.COMPLETE →
      strTruthy (docId.or old) = true := by
    intro docId old hst
    by_cases hd : strTruthy docId = true
    · cases docId with
      | none => simp [strTruthy] at hd
      | some d => simpa [Option.or] using hd
    · rw [if_neg hd] at hst
      cases hst
  have hnew2 : ∀ (docId : Option String),
      (if strTruthy docId then TransactionStatus.COMPLETE
        else TransactionStatus.MISSING_RECEIPT) = TransactionStatus.COMPLETE →
      strTruthy docId = true := by
    intro docId hst
    by_cases hd : strTruthy docId = true
    · exact hd
    · rw [if_neg hd] at hst
      cases hst
  cases hix : index p.id with
  | some j =>
    cases hget : s.updatedTransactions[j]? with
    | some existing =>
      simp only [upsertStep, hix, hget]
      intro t ht hst
      rcases List.mem_or_eq_of_mem_set ht with hmem | heq
      · exact hs t hmem hst
      · subst heq
        exact hnew _ _ hst
    | none =>
      simp only [upsertStep, hix, hget]
      intro t ht hst
      exact hs t ht hst
  | none =>
    simp only [upsertStep, hix]
    intro t ht hst
    rcases List.mem_append.mp ht with hmem | hnewmem
    · exact hs t hmem hst
    · rcases List.mem_singleton.mp hnewmem with rfl
      exact hnew2 _ hst

theorem upsertLoop_complete_truthy (index : String → Option Nat)
    (linked : String → Option String) (now : Nat) :
    ∀ (incoming : List LexofficeTransactionPayload) (s0 : UpsertResult),
      (∀ t ∈ s0.updatedTransactions,
        t.status = TransactionStatus.COMPLETE → strTruthy t.documentId = true) →
      ∀ t ∈ (incoming.foldl (upsertStep index linked now) s0).updatedTransactions,
        t.status = TransactionStatus.COMPLETE → strTruthy t.documentId = true := by
  intro incoming
  induction incoming with
  | nil => intro s0 hbase; exact hbase
  | cons p ps ih =>
    intro s0 hbase
    simp only [List.foldl_cons]
    exact ih _ (upsertStep_complete_truthy index linked now s0 p hbase)

theorem upsert_complete_truthy (incoming : List LexofficeTransactionPayload)
    (existing : List AccountingTransaction) (linked : String → Option String) (now : Nat)
    (hex : ∀ t ∈ existing,
      t.status = TransactionStatus.COMPLETE → strTruthy t.documentId = true) :
    ∀ t ∈ (upsertTransactionsFromLexoffice incoming existing linked now).updatedTransactions,
      t.status = TransactionStatus.COMPLETE → strTruthy t.documentId = true :=
  upsertLoop_complete_truthy (indexByExternalId existing) linked now incoming _ hex

theorem syncDocs_preserves_ids (documents : List AppDocument)
    (txs : List AccountingTransaction) :
    documentIds (syncDocumentsWithTransactions documents txs) = documentIds documents := by
  unfold syncDocumentsWithTransactions documentIds
  split
  · rw [List.map_map]
    apply List.map_congr_left
    intro d _
    simp only [Function.comp_apply]
    split <;> rfl
  · rfl

theorem syncTx_complete_linked (now : Nat) (documents : List AppDocument)
    (txs : List AccountingTransaction)
    (hpre : ∀ t ∈ txs, t.status = TransactionStatus.COMPLETE → strTruthy t.documentId = true) :
    ∀ t ∈ syncTransactionsWithDocuments now documents txs,
      t.status = TransactionStatus.COMPLETE →
      docIdPresentB (documentIds documents) t.documentId = true := by
  have hkept : ∀ t ∈ txs, danglingDocLink (documentIds documents) t = false →
      t.status = TransactionStatus.COMPLETE →
      docIdPresentB (documentIds documents) t.documentId = true := by
    intro t hmem hnd hst
    have htr := hpre t hmem hst
    cases hdi : t.documentId with
    | none => rw [hdi] at htr; simp [strTruthy] at htr
    | some d =>
      rw [hdi] at htr
      have hd : (d != "") = true := by simpa [strTruthy] using htr
      by_cases hc : (documentIds documents).contains d = true
      · simpa [docIdPresentB] using hc
      · exfalso
        have hcf : (documentIds documents).contains d = false := by simpa using hc
        have hdg : danglingDocLink (documentIds documents) t = true := by
          simp only [danglingDocLink, hdi, hd, hcf, Bool.true_and, Bool.not_false]
        rw [hdg] at hnd
        cases hnd
  simp only [syncTransactionsWithDocuments]
  split
  · intro t ht hst
    rcases List.mem_map.mp ht with ⟨t0, hmem0, heq⟩
    by_cases hd : danglingDocLink (documentIds documents) t0 = true
    · rw [if_pos hd] at heq
      subst heq
      cases hst
    · rw [if_neg hd] at heq
      subst heq
      exact hkept t0 hmem0 (Bool.not_eq_true _ ▸ hd) hst
  · rename_i hany
    intro t ht hst
    have hnd : danglingDocLink (documentIds documents) t = false := by
      by_contra hcon
      exact hany (List.any_eq_true.mpr ⟨t, ht, by simpa using hcon⟩)
    exact hkept t ht hnd hst

/-- C1 (amended): after an engine call followed by both synchronizer passes,
every transaction with status COMPLETE has a documentId naming a document of
the current collection, provided every pre-existing COMPLETE transaction had a
truthy documentId; the converse direction of the claimed equivalence is false
(see the counterexample): a re-imported transaction can keep a valid
documentId while its status is MISSING_RECEIPT. -/
theorem c1_amended_complete_implies_linked (incoming : List LexofficeTransactionPayload)
    (existing : List AccountingTransaction) (documents : List AppDocument)
    (linked : String → Option String) (now1 now2 : Nat)
    (hex : ∀ t ∈ existing,
      t.status = TransactionStatus.COMPLETE → strTruthy t.documentId = true) :
    ∀ t ∈ syncTransactionsWithDocuments now2 documents
        (upsertTransactionsFromLexoffice incoming existing linked now1).updatedTransactions,
      t.status = TransactionStatus.COMPLETE →
      docIdPresentB (documentIds (syncDocumentsWithTransactions documents
        (syncTransactionsWithDocuments now2 documents
          (upsertTransactionsFromLexoffice incoming existing linked
            now1).updatedTransactions))) t.documentId = true := by
  rw [syncDocs_preserves_ids]
  exact syncTx_complete_linked now2 documents _
    (upsert_complete_truthy incoming existing linked now1 hex)

/-- Invoice-number lookup map sending INV-1 to document D1. -/
def linkedInv1 : String → Option String := fun s => if s == "INV-1" then some "D1" else none

/-- Sample payload carrying invoice number INV-1. -/
def samplePayloadInv : LexofficeTransactionPayload :=
  { samplePayloadA with invoiceNumber := some "INV-1" }

/-- Witness for the amended C1 theorem at a concrete input. -/
theorem c1_amended_complete_implies_linked_witness :
    (∀ t ∈ [sampleTxComplete],
      t.status = TransactionStatus.COMPLETE → strTruthy t.documentId = true) ∧
    (∀ t ∈ syncTransactionsWithDocuments 7 [sampleDocD1]
        (upsertTransactionsFromLexoffice [samplePayloadInv] [sampleTxComplete] linkedInv1
          5).updatedTransactions,
      t.status = TransactionStatus.COMPLETE →
      docIdPresentB (documentIds (syncDocumentsWithTransactions [sampleDocD1]
        (syncTransactionsWithDocuments 7 [sampleDocD1]
          (upsertTransactionsFromLexoffice [samplePayloadInv] [sampleTxComplete] linkedInv1
            5).updatedTransactions))) t.documentId = true) :=
  ⟨by decide,
    c1_amended_complete_implies_linked [samplePayloadInv] [sampleTxComplete] [sampleDocD1]
      linkedInv1 5 7 (by decide)⟩

theorem mem_iff_of_nodup_subset_length_eq {l m : List String}
    (hnd : l.Nodup) (hsub : ∀ x ∈ l, x ∈ m) (hlen : m.length = l.length) :
    ∀ x, x ∈ l ↔ x ∈ m := by
  have hsubf : l.toFinset ⊆ m.toFinset := by
    intro x hx
    rw [List.mem_toFinset] at hx ⊢
    exact hsub x hx
  have hcard : m.toFinset.card ≤ l.toFinset.card := by
    calc m.toFinset.card ≤ m.length := List.toFinset_card_le m
    _ = l.length := hlen
    _ = l.toFinset.card := (List.toFinset_card_of_nodup hnd).symm
  have heq : l.toFinset = m.toFinset := Finset.eq_of_subset_of_card_le hsubf hcard
  intro x
  rw [← List.mem_toFinset, heq, List.mem_toFinset]

theorem linkedIdsFor_eq (txs : List AccountingTransaction) (docId : String)
    (hne : docId ≠ "") :
    linkedIdsFor txs docId =
      (txs.filter (fun t => t.documentId == some docId)).map (fun t => t.id) := by
  unfold linkedIdsFor
  congr 1
  apply List.filter_congr
  intro t _
  cases hdi : t.documentId with
  | none => simp
  | some d =>
    by_cases hdd : d = docId
    · subst hdd
      simp [hne]
    · simp [hdd]

theorem linkSetUnchanged_mem_iff (currentIds linkedIds : List String)
    (hnd : currentIds.Nodup) (h : linkSetUnchanged currentIds linkedIds = true) :
    ∀ x, x ∈ currentIds ↔ x ∈ linkedIds := by
  unfold linkSetUnchanged at h
  rw [Bool.and_eq_true] at h
  obtain ⟨hlen, hall⟩ := h
  apply mem_iff_of_nodup_subset_length_eq hnd
  · intro x hx
    have := List.all_eq_true.mp hall x hx
    simpa using this
  · have : currentIds.length = linkedIds.length := by simpa using hlen
    omega

/-- C3 (amended): after the document-side synchronizer pass, every document's
linkedTransactionIds equals, as a set, the set of ids of transactions whose
documentId names it — provided each document has a nonempty id and its stored
linkedTransactionIds holds no duplicate entries.  Without the no-duplicate
proviso the membership comparison of the pass is fooled (see the
counterexample). -/
theorem c3_amended_link_set_consistent (documents : List AppDocument)
    (txs : List AccountingTransaction)
    (hnd : ∀ d ∈ documents, (d.linkedTransactionIds.getD []).Nodup)
    (hid : ∀ d ∈ documents, d.id ≠ "") :
    ∀ d ∈ syncDocumentsWithTransactions documents txs, ∀ x,
      x ∈ d.linkedTransactionIds.getD [] ↔
      x ∈ (txs.filter (fun t => t.documentId == some d.id)).map (fun t => t.id) := by
  have hsame : ∀ d0 ∈ documents,
      linkSetUnchanged (d0.linkedTransactionIds.getD []) (linkedIdsFor txs d0.id) = true →
      ∀ x, x ∈ d0.linkedTransactionIds.getD [] ↔
        x ∈ (txs.filter (fun t => t.documentId == some d0.id)).map (fun t => t.id) := by
    intro d0 hd0 hsu x
    rw [← linkedIdsFor_eq txs d0.id (hid d0 hd0)]
    exact linkSetUnchanged_mem_iff _ _ (hnd d0 hd0) hsu x
  simp only [syncDocumentsWithTransactions]
  split
  · intro d hd x
    rcases List.mem_map.mp hd with ⟨d0, hmem0, heq⟩
    by_cases hsu : linkSetUnchanged (d0.linkedTransactionIds.getD [])
        (linkedIdsFor txs d0.id) = true
    · rw [if_pos hsu] at heq
      subst heq
      exact hsame d0 hmem0 hsu x
    · rw [if_neg hsu] at heq
      subst heq
      simp only [Option.getD_some]
      rw [← linkedIdsFor_eq txs d0.id (hid d0 hmem0)]
  · rename_i hany
    intro d hd x
    have hsu : linkSetUnchanged (d.linkedTransactionIds.getD [])
        (linkedIdsFor txs d.id) = true := by
      by_contra hcon
      exact hany (List.any_eq_true.mpr ⟨d, hd, by simpa using hcon⟩)
    exact hsame d hd hsu x

/-- Document D1 whose stored link list holds a duplicated entry. -/
def c3docDup : AppDocument := { sampleDocD1 with linkedTransactionIds := some ["a", "a"] }

/-- Transaction a pointing at D1. -/
def c3txA : AccountingTransaction := { sampleTxComplete with id := "a" }

/-- Transaction b pointing at D1. -/
def c3txB : AccountingTransaction := { sampleTxComplete with id := "b" }

/-- C3 (counterexample): with stored linkedTransactionIds [a, a] and the two
transactions a and b pointing at D1, the pass keeps [a, a] — same length and
every current entry occurs in the computed list — so the output is not
set-equal to the computed set, which also contains b. -/
theorem c3_counterexample_duplicate_entries :
    ¬ (∀ d ∈ syncDocumentsWithTransactions [c3docDup] [c3txA, c3txB], ∀ x,
        x ∈ d.linkedTransactionIds.getD [] ↔
        x ∈ ([c3txA, c3txB].filter (fun t => t.documentId == some d.id)).map
          (fun t => t.id)) := by
  intro h
  have hd : c3docDup ∈ syncDocumentsWithTransactions [c3docDup] [c3txA, c3txB] := by decide
  have hb := (h c3docDup hd "b").mpr (by decide)
  revert hb
  decide

/-- Witness for the amended C3 theorem at a concrete input. -/
theorem c3_amended_link_set_consistent_witness :
    ((∀ d ∈ [sampleDocD1], (d.linkedTransactionIds.getD []).Nodup) ∧
     (∀ d ∈ [sampleDocD1], d.id ≠ "")) ∧
    (∀ d ∈ syncDocumentsWithTransactions [sampleDocD1] [c3txA, c3txB], ∀ x,
      x ∈ d.linkedTransactionIds.getD [] ↔
      x ∈ ([c3txA, c3txB].filter (fun t => t.documentId == some d.id)).map
        (fun t => t.id)) :=
  ⟨⟨by decide, by decide⟩,
    c3_amended_link_set_consistent [sampleDocD1] [c3txA, c3txB] (by decide) (by decide)⟩

theorem deriveDefaultWarnings_decomposed (r : GeminiAnalysisResult) (avgC : JsNum) :
    deriveDefaultWarnings r avgC =
      (r.warnings.getD []) ++
      (if r.isOrderConfirmation && !r.isInvoice
          && !((r.warnings.getD []).any (fun w => jsIncludes w "Bestell")) then
        [bestellWarnung] else []) ++
      (if r.isEmailBody && !r.isInvoice
          && !((r.warnings.getD []).any (fun w => jsIncludes w "E-Mail")) then
        [emailWarnung] else []) ++
      (if r.invoiceNumber == ""
          && !((r.warnings.getD []).any (fun w => jsIncludes w "Rechnungsnummer")) then
        [rechnungsnummerWarnung] else []) ++
      (if r.totalAmount == 0 || r.totalAmount ≤ 0 then [betragWarnung] else []) ++
      (if jsLtQ avgC 75 then [ocrWarnung] else []) := by
  have he1 : jsIncludes bestellWarnung "E-Mail" = false := by decide
  have hr1 : jsIncludes bestellWarnung "Rechnungsnummer" = false := by decide
  have hr2 : jsIncludes emailWarnung "Rechnungsnummer" = false := by decide
  unfold deriveDefaultWarnings
  by_cases b1 : (r.isOrderConfirmation && !r.isInvoice
      && !((r.warnings.getD []).any (fun w => jsIncludes w "Bestell"))) = true
  · simp only [b1, if_true]
    by_cases b2 : (r.isEmailBody && !r.isInvoice
        && !((r.warnings.getD []).any (fun w => jsIncludes w "E-Mail"))) = true
    · have b2' : (r.isEmailBody && !r.isInvoice
          && !(((r.warnings.getD []) ++ [bestellWarnung]).any
            (fun w => jsIncludes w "E-Mail"))) = true := by
        simpa [List.any_append, he1] using b2
      simp only [b2', if_true]
      by_cases b3 : (r.invoiceNumber == ""
          && !((r.warnings.getD []).any (fun w => jsIncludes w "Rechnungsnummer"))) = true
      · have b3' : (r.invoiceNumber == ""
            && !((((r.warnings.getD []) ++ [bestellWarnung]) ++ [emailWarnung]).any
              (fun w => jsIncludes w "Rechnungsnummer"))) = true := by
          simpa [List.any_append, hr1, hr2] using b3
        simp only [b3', if_true, b2, b3]
        split <;> split <;> simp [List.append_assoc]
      · have b3' : (r.invoiceNumber == ""
            && !((((r.warnings.getD []) ++ [bestellWarnung]) ++ [emailWarnung]).any
              (fun w => jsIncludes w "Rechnungsnummer"))) = false := by
          rw [Bool.eq_false_iff]
          intro hcon
          exact absurd (by simpa [List.any_append, hr1, hr2] using hcon) b3
        simp only [b3', Bool.false_eq_true, reduceIte, b2, b3]
        split <;> split <;> simp [List.append_assoc]
    · have b2' : (r.isEmailBody && !r.isInvoice
          && !(((r.warnings.getD []) ++ [bestellWarnung]).any
            (fun w => jsIncludes w "E-Mail"))) = false := by
        rw [Bool.eq_false_iff]
        intro hcon
        exact absurd (by simpa [List.any_append, he1] using hcon) b2
      simp only [b2', Bool.false_eq_true, reduceIte, b2]
      by_cases b3 : (r.invoiceNumber == ""
          && !((r.warnings.getD []).any (fun w => jsIncludes w "Rechnungsnummer"))) = true
      · have b3' : (r.invoiceNumber == ""
            && !(((r.warnings.getD []) ++ [bestellWarnung]).any
              (fun w => jsIncludes w "Rechnungsnummer"))) = true := by
          simpa [List.any_append, hr1] using b3
        simp only [b3', if_true, b3]
        split <;> split <;> simp [List.append_assoc]
      · have b3' : (r.invoiceNumber == ""
            && !(((r.warnings.getD []) ++ [bestellWarnung]).any
              (fun w => jsIncludes w "Rechnungsnummer"))) = false := by
          rw [Bool.eq_false_iff]
          intro hcon
          exact absurd (by simpa [List.any_append, hr1] using hcon) b3
        simp only [b3', Bool.false_eq_true, reduceIte, b3]
        split <;> split <;> simp [List.append_assoc]
  · simp only [b1, Bool.false_eq_true, reduceIte]
    by_cases b2 : (r.isEmailBody && !r.isInvoice
        && !((r.warnings.getD []).any (fun w => jsIncludes w "E-Mail"))) = true
    · simp only [b2, if_true]
      by_cases b3 : (r.invoiceNumber == ""
          && !((r.warnings.getD []).any (fun w => jsIncludes w "Rechnungsnummer"))) = true
      · have b3' : (r.invoiceNumber == ""
            && !(((r.warnings.getD []) ++ [emailWarnung]).any
              (fun w => jsIncludes w "Rechnungsnummer"))) = true := by
          simpa [List.any_append, hr2] using b3
        simp only [b3', if_true, b3]
        split <;> split <;> simp [List.append_assoc]
      · have b3' : (r.invoiceNumber == ""
            && !(((r.warnings.getD []) ++ [emailWarnung]).any
              (fun w => jsIncludes w "Rechnungsnummer"))) = false := by
          rw [Bool.eq_false_iff]
          intro hcon
          exact absurd (by simpa [List.any_append, hr2] using hcon) b3
        simp only [b3', Bool.false_eq_true, reduceIte, b3]
        split <;> split <;> simp [List.append_assoc]
    · simp only [b2, Bool.false_eq_true, reduceIte]
      by_cases b3 : (r.invoiceNumber == ""
          && !((r.warnings.getD []).any (fun w => jsIncludes w "Rechnungsnummer"))) = true
      · simp only [b3, if_true]
        split <;> split <;> simp [List.append_assoc]
      · simp only [b3, Bool.false_eq_true, reduceIte]
        split <;> split <;> simp [List.append_assoc]

theorem ensure_avg_warnings (r : GeminiAnalysisResult) :
    ∃ a, (ensureExtendedAnalysisData r).averageConfidence = some a ∧
      (ensureExtendedAnalysisData r).warnings = some (deriveDefaultWarnings r a) := by
  cases hra : r.averageConfidence with
  | some j =>
    simp only [ensureExtendedAnalysisData, hra]
    exact ⟨_, rfl, rfl⟩
  | none =>
    simp only [ensureExtendedAnalysisData, hra]
    exact ⟨_, rfl, rfl⟩

/-- C4 (amended): the normalizer appends the order-confirmation, email-body and
missing-invoice-number warnings only when their condition holds and no existing
warning contains the respective keyword; the non-positive-amount and
below-75-confidence warnings are appended whenever their condition holds, even
when already present; caller-supplied warnings are never removed, reordered or
replaced — they form the prefix of the output. -/
theorem c4_amended_warning_synthesis (r : GeminiAnalysisResult) :
    ∃ a, (ensureExtendedAnalysisData r).averageConfidence = some a ∧
    (ensureExtendedAnalysisData r).warnings = some (
      (r.warnings.getD []) ++
      (if r.isOrderConfirmation && !r.isInvoice
          && !((r.warnings.getD []).any (fun w => jsIncludes w "Bestell")) then
        [bestellWarnung] else []) ++
      (if r.isEmailBody && !r.isInvoice
          && !((r.warnings.getD []).any (fun w => jsIncludes w "E-Mail")) then
        [emailWarnung] else []) ++
      (if r.invoiceNumber == ""
          && !((r.warnings.getD []).any (fun w => jsIncludes w "Rechnungsnummer")) then
        [rechnungsnummerWarnung] else []) ++
      (if r.totalAmount == 0 || r.totalAmount ≤ 0 then [betragWarnung] else []) ++
      (if jsLtQ a 75 then [ocrWarnung] else [])) := by
  obtain ⟨a, ha, hw⟩ := ensure_avg_warnings r
  exact ⟨a, ha, by rw [hw, deriveDefaultWarnings_decomposed]⟩

/-- Analysis result whose caller-supplied warnings already contain the
non-positive-amount warning, with a zero total amount. -/
def c4ex : GeminiAnalysisResult :=
  { isInvoice := true, isOrderConfirmation := false, isEmailBody := false,
    documentDate := "2024-01-01", textContent := "", vendor := "V", totalAmount := 0,
    vatAmount := 0, invoiceNumber := "R1", invoiceType := InvoiceType.INCOMING,
    taxCategory := "K", averageConfidence := some (JsNum.num 80), fieldConfidences := none,
    warnings := some [betragWarnung], suggestedStorageLocationId := none, pageCount := none }

/-- C4 (counterexample): the non-positive-amount warning is appended although it
is already present in the caller-supplied list — the output holds it twice,
refuting the only-if-absent part of the claim. -/
theorem c4_counterexample_duplicate_betrag :
    betragWarnung ∈ (c4ex.warnings.getD []) ∧
    (c4ex.warnings.getD []).count betragWarnung = 1 ∧
    ((ensureExtendedAnalysisData c4ex).warnings.getD []).count betragWarnung = 2 := by
  have hw : (ensureExtendedAnalysisData c4ex).warnings =
      some (deriveDefaultWarnings c4ex (jsToFixed2 (JsNum.num 80))) := rfl
  have h5 : jsLtQ (jsToFixed2 (JsNum.num 80)) 75 = false := by
    simp only [jsToFixed2, jsLtQ, qToFixed2]
    norm_num
    unfold jsRound
    norm_num
  refine ⟨by decide, by decide, ?_⟩
  rw [hw, deriveDefaultWarnings_decomposed, h5]
  decide

theorem clampConfidence_bounds (v : Option JsNum) :
    ∃ n : ℤ, clampConfidence v = (n : ℚ) ∧ 10 ≤ n ∧ n ≤ 100 := by
  match v with
  | none => exact ⟨65, by norm_num [clampConfidence], by norm_num, by norm_num⟩
  | some JsNum.nan => exact ⟨65, by norm_num [clampConfidence], by norm_num, by norm_num⟩
  | some (JsNum.num q) =>
    refine ⟨max 10 (min 100 (jsRound q)), ?_, ?_, ?_⟩
    · show max 10 (min 100 ((jsRound q : ℤ) : ℚ)) = ((max 10 (min 100 (jsRound q)) : ℤ) : ℚ)
      rw [Int.cast_max, Int.cast_min]
      norm_num
    · exact le_max_left _ _
    · have h1 : min 100 (jsRound q) ≤ 100 := min_le_left _ _
      omega

theorem synchronizeField_confidence (r : GeminiAnalysisResult) (g : OcrFieldConfidence) :
    (synchronizeField r g).confidence = g.confidence := by
  unfold synchronizeField
  repeat' split
  all_goals rfl

theorem buildDefault_confidence_clamped (r : GeminiAnalysisResult) :
    ∀ g ∈ buildDefaultFieldConfidences r, ∃ v, g.confidence = JsNum.num (clampConfidence v) := by
  intro g hg
  unfold buildDefaultFieldConfidences at hg
  rcases List.mem_map.mp hg with ⟨h0, hh0, heq⟩
  subst heq
  fin_cases hh0 <;> exact ⟨_, rfl⟩

theorem ensure_fields_shape (r : GeminiAnalysisResult) :
    ∃ base : List OcrFieldConfidence, (ensureExtendedAnalysisData r).fieldConfidences =
        some (base.map (synchronizeField r)) ∧
      ∀ g ∈ base, ∃ v, g.confidence = JsNum.num (clampConfidence v) := by
  cases hrf : r.fieldConfidences with
  | none =>
    refine ⟨buildDefaultFieldConfidences r, ?_, buildDefault_confidence_clamped r⟩
    simp only [ensureExtendedAnalysisData, hrf]
  | some fcs =>
    by_cases hlen : 0 < fcs.length
    · simp only [ensureExtendedAnalysisData, hrf, if_pos hlen]
      refine ⟨_, rfl, ?_⟩
      intro g hg
      rcases List.mem_map.mp hg with ⟨f0, _, heq⟩
      subst heq
      exact ⟨some f0.confidence, rfl⟩
    · simp only [ensureExtendedAnalysisData, hrf, if_neg hlen]
      exact ⟨buildDefaultFieldConfidences r, rfl, buildDefault_confidence_clamped r⟩

/-- C7 (amended): every per-field confidence in the normalizer's output is an
integer in the range 10 to 100, for any input including negative, above-100,
NaN or absent values; the claim fails for the averageConfidence field, which is
passed through unclamped (see the counterexample). -/
theorem c7_amended_field_confidences_clamped (r : GeminiAnalysisResult) :
    ∀ f ∈ (ensureExtendedAnalysisData r).fieldConfidences.getD [], ∃ n : ℤ,
      f.confidence = JsNum.num (n : ℚ) ∧ 10 ≤ n ∧ n ≤ 100 := by
  intro f hf
  obtain ⟨base, hshape, hclamped⟩ := ensure_fields_shape r
  rw [hshape] at hf
  simp only [Option.getD_some] at hf
  rcases List.mem_map.mp hf with ⟨g, hgmem, heq⟩
  obtain ⟨v, hv⟩ := hclamped g hgmem
  obtain ⟨n, hn, hn1, hn2⟩ := clampConfidence_bounds v
  refine ⟨n, ?_, hn1, hn2⟩
  rw [← heq, synchronizeField_confidence, hv, hn]

/-- Analysis result with a caller-supplied averageConfidence of 200. -/
def c7ex : GeminiAnalysisResult := { c4ex with averageConfidence := some (JsNum.num 200) }

/-- C7 (counterexample): a caller-supplied averageConfidence of 200 leaves the
normalizer as 200 — outside the claimed range 10 to 100 — because the
averageConfidence branch only reformats to two decimals and never clamps. -/
theorem c7_counterexample_average_unclamped :
    (ensureExtendedAnalysisData c7ex).averageConfidence = some (JsNum.num 200) ∧
    ¬ ((200 : ℚ) ≤ 100) := by
  constructor
  · have h1 : (ensureExtendedAnalysisData c7ex).averageConfidence =
        some (jsToFixed2 (JsNum.num 200)) := rfl
    rw [h1]
    have h2 : jsToFixed2 (JsNum.num 200) = JsNum.num 200 := by
      simp only [jsToFixed2, qToFixed2, JsNum.num.injEq]
      unfold jsRound
      norm_num
    rw [h2]
  · norm_num

/-- Caller-supplied field-confidence entry used by the C7 witness. -/
def c7inField : OcrFieldConfidence :=
  { field := "x", value := "v", confidence := JsNum.num 50, confidenceDescription := some "D" }

/-- Analysis result with one caller-supplied field confidence. -/
def c7r : GeminiAnalysisResult := { c4ex with fieldConfidences := some [c7inField] }

/-- Normalized form of the field-confidence entry used by the C7 witness. -/
def c7outField : OcrFieldConfidence :=
  { field := "x", value := "v", confidence := JsNum.num 50, confidenceDescription := some "D" }

theorem c7r_fields_eval :
    (ensureExtendedAnalysisData c7r).fieldConfidences = some [c7outField] := by
  have hclamp : clampConfidence (some (JsNum.num 50)) = (50 : ℚ) := by
    unfold clampConfidence jsRound
    norm_num
  have h1 : (ensureExtendedAnalysisData c7r).fieldConfidences =
      some [{ c7inField with
        confidence := JsNum.num (clampConfidence (some (JsNum.num 50))) }] := rfl
  rw [h1, hclamp]
  rfl

/-- Witness for the amended C7 theorem at a concrete input. -/
theorem c7_amended_field_confidences_clamped_witness :
    c7outField ∈ (ensureExtendedAnalysisData c7r).fieldConfidences.getD [] ∧
    (∃ n : ℤ, c7outField.confidence = JsNum.num (n : ℚ) ∧ 10 ≤ n ∧ n ≤ 100) :=
  have hmem : c7outField ∈ (ensureExtendedAnalysisData c7r).fieldConfidences.getD [] := by
    rw [c7r_fields_eval]
    exact List.mem_singleton.mpr rfl
  ⟨hmem, c7_amended_field_confidences_clamped c7r c7outField hmem⟩

theorem dedupFold_mem (x : String) : ∀ (l acc : List String),
    x ∈ l.foldl (fun acc y => if y ∈ acc then acc else acc ++ [y]) acc →
    x ∈ acc ∨ x ∈ l := by
  intro l
  induction l with
  | nil => intro acc h; exact Or.inl h
  | cons y ys ih =>
    intro acc h
    simp only [List.foldl_cons] at h
    rcases ih _ h with hacc | hmem
    · by_cases hy : y ∈ acc
      · rw [if_pos hy] at hacc
        exact Or.inl hacc
      · rw [if_neg hy] at hacc
        rcases List.mem_append.mp hacc with h1 | h2
        · exact Or.inl h1
        · rcases List.mem_singleton.mp h2 with rfl
          exact Or.inr (List.mem_cons_self _ _)
    · exact Or.inr (List.mem_cons_of_mem _ hmem)

theorem insertOrderDedup_mem (x : String) (l : List String)
    (h : x ∈ insertOrderDedup l) : x ∈ l := by
  rcases dedupFold_mem x l [] h with hacc | hmem
  · cases hacc
  · exact hmem

theorem walkTasks_missing_subset (now : Nat) : ∀ (ts : List TaskItem) (m : List String),
    ∀ x ∈ (walkTasks now m ts).missing, x ∈ m := by
  intro ts
  induction ts with
  | nil => intro m x hx; exact hx
  | cons t ts ih =>
    intro m x hx
    by_cases htr : strTruthy t.relatedTransactionId = true
    · by_cases hmem : t.relatedTransactionId.getD "" ∈ m
      · simp only [walkTasks, if_pos htr, if_pos hmem] at hx
        exact List.erase_subset _ m (ih (m.erase (t.relatedTransactionId.getD "")) x hx)
      · by_cases hdone : t.status = TaskStatus.DONE
        · simp only [walkTasks, if_pos htr, if_neg hmem, if_pos hdone] at hx
          exact ih m x hx
        · simp only [walkTasks, if_pos htr, if_neg hmem, if_neg hdone] at hx
          exact ih m x hx
    · simp only [walkTasks, if_neg htr] at hx
      exact ih m x hx

theorem walkTasks_now_indep (now1 now2 : Nat) : ∀ (ts : List TaskItem) (m : List String),
    (walkTasks now1 m ts).missing = (walkTasks now2 m ts).missing ∧
    (walkTasks now1 m ts).changed = (walkTasks now2 m ts).changed := by
  intro ts
  induction ts with
  | nil => intro m; exact ⟨rfl, rfl⟩
  | cons t ts ih =>
    intro m
    by_cases htr : strTruthy t.relatedTransactionId = true
    · by_cases hmem : t.relatedTransactionId.getD "" ∈ m
      · simp only [walkTasks, if_pos htr, if_pos hmem]
        exact ih (m.erase (t.relatedTransactionId.getD ""))
      · by_cases hdone : t.status = TaskStatus.DONE
        · simp only [walkTasks, if_pos htr, if_neg hmem, if_pos hdone]
          exact ih m
        · simp only [walkTasks, if_pos htr, if_neg hmem, if_neg hdone]
          exact ⟨(ih m).1, trivial⟩
    · simp only [walkTasks, if_neg htr]
      exact ih m

theorem walkTasks_unchanged_eq (now : Nat) : ∀ (ts : List TaskItem) (m : List String),
    (walkTasks now m ts).changed = false → (walkTasks now m ts).tasks = ts := by
  intro ts
  induction ts with
  | nil => intro m _; rfl
  | cons t ts ih =>
    intro m hch
    by_cases htr : strTruthy t.relatedTransactionId = true
    · by_cases hmem : t.relatedTransactionId.getD "" ∈ m
      · simp only [walkTasks, if_pos htr, if_pos hmem] at hch ⊢
        rw [ih (m.erase (t.relatedTransactionId.getD "")) hch]
      · by_cases hdone : t.status = TaskStatus.DONE
        · simp only [walkTasks, if_pos htr, if_neg hmem, if_pos hdone] at hch ⊢
          rw [ih m hch]
        · simp only [walkTasks, if_pos htr, if_neg hmem, if_neg hdone] at hch
          cases hch
    · simp only [walkTasks, if_neg htr] at hch ⊢
      rw [ih m hch]

theorem walkTasks_restable (now1 now2 : Nat) : ∀ (ts : List TaskItem) (m : List String),
    walkTasks now2 m ((walkTasks now1 m ts).tasks) =
      { missing := (walkTasks now1 m ts).missing,
        tasks := (walkTasks now1 m ts).tasks, changed := false } := by
  intro ts
  induction ts with
  | nil => intro m; rfl
  | cons t ts ih =>
    intro m
    by_cases htr : strTruthy t.relatedTransactionId = true
    · by_cases hmem : t.relatedTransactionId.getD "" ∈ m
      · simp only [walkTasks, if_pos htr, if_pos hmem]
        rw [ih (m.erase (t.relatedTransactionId.getD ""))]
      · by_cases hdone : t.status = TaskStatus.DONE
        · simp only [walkTasks, if_pos htr, if_neg hmem, if_pos hdone]
          rw [ih m]
        · simp only [walkTasks, if_pos htr, if_neg hmem, if_neg hdone]
          rw [ih m]
          simp [htr, hmem]
    · simp only [walkTasks, if_neg htr]
      rw [ih m]

theorem walkTasks_append (now : Nat) : ∀ (ts us : List TaskItem) (m : List String),
    walkTasks now m (ts ++ us) =
      { missing := (walkTasks now (walkTasks now m ts).missing us).missing,
        tasks := (walkTasks now m ts).tasks ++
          (walkTasks now (walkTasks now m ts).missing us).tasks,
        changed := (walkTasks now m ts).changed ||
          (walkTasks now (walkTasks now m ts).missing us).changed } := by
  intro ts
  induction ts with
  | nil =>
    intro us m
    simp only [List.nil_append, walkTasks]
    cases walkTasks now m us
    rfl
  | cons t ts ih =>
    intro us m
    by_cases htr : strTruthy t.relatedTransactionId = true
    · by_cases hmem : t.relatedTransactionId.getD "" ∈ m
      · simp only [List.cons_append, List.append_eq, walkTasks, if_pos htr, if_pos hmem,
          ih us (m.erase (t.relatedTransactionId.getD ""))]
      · by_cases hdone : t.status = TaskStatus.DONE
        · simp only [List.cons_append, List.append_eq, walkTasks, if_pos htr, if_neg hmem,
            if_pos hdone, ih us m]
        · simp only [List.cons_append, List.append_eq, walkTasks, if_pos htr, if_neg hmem,
            if_neg hdone, ih us m]
          simp
    · simp only [List.cons_append, List.append_eq, walkTasks, if_neg htr, ih us m]

theorem walkTasks_created (now1 now2 : Nat) (transactions : List AccountingTransaction) :
    ∀ m : List String, (∀ i ∈ m, ∃ tx ∈ transactions, (tx.id == i) = true) →
      (∀ i ∈ m, i ≠ "") →
      walkTasks now2 m (createdTasks now1 transactions m) =
        { missing := [], tasks := createdTasks now1 transactions m, changed := false } := by
  intro m
  induction m with
  | nil => intro _ _; rfl
  | cons i rest ih =>
    intro h hne
    have hex := h i (List.mem_cons_self _ _)
    have hnei : i ≠ "" := hne i (List.mem_cons_self _ _)
    have hsome : (transactions.find? (fun t => t.id == i)).isSome := by
      rw [List.find?_isSome]
      obtain ⟨tx, htx, hp⟩ := hex
      exact ⟨tx, htx, hp⟩
    obtain ⟨tx0, hfind⟩ := Option.isSome_iff_exists.mp hsome
    have hid0 : tx0.id = i := by
      have := List.find?_some hfind
      simpa using this
    have hcreated : createdTasks now1 transactions (i :: rest) =
        mkMissingTask now1 tx0 :: createdTasks now1 transactions rest := by
      simp only [createdTasks, List.filterMap_cons, hfind, Option.map_some']
    rw [hcreated]
    have htr : strTruthy (mkMissingTask now1 tx0).relatedTransactionId = true := by
      simp [mkMissingTask, strTruthy, hid0, hnei]
    have hget : (mkMissingTask now1 tx0).relatedTransactionId.getD "" = i := by
      simp [mkMissingTask, hid0]
    simp only [walkTasks, if_pos htr, hget, if_pos (List.mem_cons_self i rest),
      List.erase_cons_head]
    have hrest : ∀ j ∈ rest, ∃ tx ∈ transactions, (tx.id == j) = true :=
      fun j hj => h j (List.mem_cons_of_mem _ hj)
    have hnerest : ∀ j ∈ rest, j ≠ "" :=
      fun j hj => hne j (List.mem_cons_of_mem _ hj)
    rw [ih hrest hnerest]

theorem createdTasks_nil_of_all_found (now : Nat) (transactions : List AccountingTransaction)
    (m : List String) (h : ∀ i ∈ m, ∃ tx ∈ transactions, (tx.id == i) = true)
    (hc : createdTasks now transactions m = []) : m = [] := by
  cases m with
  | nil => rfl
  | cons i rest =>
    exfalso
    have hsome : (transactions.find? (fun t => t.id == i)).isSome := by
      rw [List.find?_isSome]
      obtain ⟨tx, htx, hp⟩ := h i (List.mem_cons_self _ _)
      exact ⟨tx, htx, hp⟩
    obtain ⟨tx0, hfind⟩ := Option.isSome_iff_exists.mp hsome
    simp [createdTasks, List.filterMap_cons, hfind] at hc

theorem missing_ids_findable (transactions : List AccountingTransaction) :
    ∀ i ∈ insertOrderDedup ((transactions.filter
        (fun tx => tx.status = TransactionStatus.MISSING_RECEIPT)).map (fun tx => tx.id)),
      ∃ tx ∈ transactions, (tx.id == i) = true := by
  intro i hi
  have hi2 := insertOrderDedup_mem i _ hi
  rcases List.mem_map.mp hi2 with ⟨tx, htx, rfl⟩
  exact ⟨tx, List.mem_of_mem_filter htx, by simp⟩

theorem missing_ids_nonempty (transactions : List AccountingTransaction)
    (hids : ∀ tx ∈ transactions,
      tx.status = TransactionStatus.MISSING_RECEIPT → tx.id ≠ "") :
    ∀ i ∈ insertOrderDedup ((transactions.filter
        (fun tx => tx.status = TransactionStatus.MISSING_RECEIPT)).map (fun tx => tx.id)),
      i ≠ "" := by
  intro i hi
  have hi2 := insertOrderDedup_mem i _ hi
  rcases List.mem_map.mp hi2 with ⟨tx, htx, rfl⟩
  obtain ⟨hmem, hpred⟩ := List.mem_filter.mp htx
  exact hids tx hmem (by simpa using hpred)

/-- C8 (amended): provided every MISSING_RECEIPT transaction has a nonempty id,
running the missing-receipt task generator a second time over the same
transaction list returns the first run's task list unchanged — no new tasks and
no duplicate ids arise, whatever the clock values of the two runs.  Without
the nonempty-id proviso the claim fails: a synthesized task for an empty
transaction id carries a falsy relatedTransactionId and is never matched again
(see the counterexample). -/
theorem c8_amended_generateTasks_idempotent (now1 now2 : Nat)
    (transactions : List AccountingTransaction) (prevTasks : List TaskItem)
    (hids : ∀ tx ∈ transactions,
      tx.status = TransactionStatus.MISSING_RECEIPT → tx.id ≠ "") :
    generateTasks now2 transactions (generateTasks now1 transactions prevTasks) =
      generateTasks now1 transactions prevTasks := by
  have hfound := missing_ids_findable transactions
  have hnonempty := missing_ids_nonempty transactions hids
  set M := insertOrderDedup ((transactions.filter
    (fun tx => tx.status = TransactionStatus.MISSING_RECEIPT)).map (fun tx => tx.id)) with hM
  have hsub : ∀ i ∈ (walkTasks now1 M prevTasks).missing,
      ∃ tx ∈ transactions, (tx.id == i) = true :=
    fun i hi => hfound i (walkTasks_missing_subset now1 prevTasks M i hi)
  have hsubne : ∀ i ∈ (walkTasks now1 M prevTasks).missing, i ≠ "" :=
    fun i hi => hnonempty i (walkTasks_missing_subset now1 prevTasks M i hi)
  have hrun1 : generateTasks now1 transactions prevTasks =
      if (walkTasks now1 M prevTasks).changed ||
          !(createdTasks now1 transactions (walkTasks now1 M prevTasks).missing).isEmpty then
        (walkTasks now1 M prevTasks).tasks ++
          createdTasks now1 transactions (walkTasks now1 M prevTasks).missing
      else prevTasks := rfl
  by_cases hcase : ((walkTasks now1 M prevTasks).changed ||
      !(createdTasks now1 transactions (walkTasks now1 M prevTasks).missing).isEmpty) = true
  · have hout : generateTasks now1 transactions prevTasks =
        (walkTasks now1 M prevTasks).tasks ++
          createdTasks now1 transactions (walkTasks now1 M prevTasks).missing := by
      rw [hrun1, if_pos hcase]
    rw [hout]
    have hrun2 : generateTasks now2 transactions
        ((walkTasks now1 M prevTasks).tasks ++
          createdTasks now1 transactions (walkTasks now1 M prevTasks).missing) =
        if (walkTasks now2 M ((walkTasks now1 M prevTasks).tasks ++
            createdTasks now1 transactions (walkTasks now1 M prevTasks).missing)).changed ||
          !(createdTasks now2 transactions (walkTasks now2 M
            ((walkTasks now1 M prevTasks).tasks ++
              createdTasks now1 transactions
                (walkTasks now1 M prevTasks).missing)).missing).isEmpty then
          (walkTasks now2 M ((walkTasks now1 M prevTasks).tasks ++
            createdTasks now1 transactions (walkTasks now1 M prevTasks).missing)).tasks ++
            createdTasks now2 transactions (walkTasks now2 M
              ((walkTasks now1 M prevTasks).tasks ++
                createdTasks now1 transactions (walkTasks now1 M prevTasks).missing)).missing
        else (walkTasks now1 M prevTasks).tasks ++
          createdTasks now1 transactions (walkTasks now1 M prevTasks).missing := rfl
    rw [hrun2]
    have hw2 : walkTasks now2 M ((walkTasks now1 M prevTasks).tasks ++
        createdTasks now1 transactions (walkTasks now1 M prevTasks).missing) =
        { missing := [],
          tasks := (walkTasks now1 M prevTasks).tasks ++
            createdTasks now1 transactions (walkTasks now1 M prevTasks).missing,
          changed := false } := by
      rw [walkTasks_append, walkTasks_restable now1 now2 prevTasks M]
      dsimp only
      rw [walkTasks_created now1 now2 transactions _ hsub hsubne]
      rfl
    rw [hw2]
    simp [createdTasks]
  · have hfalse : ((walkTasks now1 M prevTasks).changed ||
        !(createdTasks now1 transactions (walkTasks now1 M prevTasks).missing).isEmpty)
        = false := by
      simpa using hcase
    obtain ⟨hch1, hce1⟩ := Bool.or_eq_false_iff.mp hfalse
    have hc1nil : createdTasks now1 transactions (walkTasks now1 M prevTasks).missing = [] :=
      List.isEmpty_iff.mp (by simpa using hce1)
    have hm1nil : (walkTasks now1 M prevTasks).missing = [] :=
      createdTasks_nil_of_all_found now1 transactions _ hsub hc1nil
    have hout : generateTasks now1 transactions prevTasks = prevTasks := by
      rw [hrun1, if_neg hcase]
    rw [hout]
    have hrun2 : generateTasks now2 transactions prevTasks =
        if (walkTasks now2 M prevTasks).changed ||
            !(createdTasks now2 transactions (walkTasks now2 M prevTasks).missing).isEmpty then
          (walkTasks now2 M prevTasks).tasks ++
            createdTasks now2 transactions (walkTasks now2 M prevTasks).missing
        else prevTasks := rfl
    rw [hrun2]
    have hind := walkTasks_now_indep now2 now1 prevTasks M
    have hch2 : (walkTasks now2 M prevTasks).changed = false := by
      rw [hind.2]; exact hch1
    have hm2 : (walkTasks now2 M prevTasks).missing = [] := by
      rw [hind.1]; exact hm1nil
    rw [hm2, hch2]
    simp [createdTasks]

/-- Missing-receipt transaction whose id is the empty string. -/
def c8txEmpty : AccountingTransaction :=
  { sampleTxComplete with
    id := ""
    documentId := none
    status := TransactionStatus.MISSING_RECEIPT }

/-- C8 (counterexample): for a missing-receipt transaction with an empty id,
the first run synthesizes task-  with a falsy relatedTransactionId; the second
run's walk passes that task through without consuming the id, so a duplicate
task- is created — the second run does not return the list unchanged. -/
theorem c8_counterexample_empty_transaction_id :
    (generateTasks 0 [c8txEmpty] []).map (fun t => t.id) = ["task-"] ∧
    (generateTasks 0 [c8txEmpty] (generateTasks 0 [c8txEmpty] [])).map (fun t => t.id) =
      ["task-", "task-"] := by
  decide

/-- Missing-receipt transaction with a nonempty id. -/
def c8txM : AccountingTransaction :=
  { sampleTxComplete with
    id := "m1"
    documentId := none
    status := TransactionStatus.MISSING_RECEIPT }

/-- Witness for the amended C8 theorem at a concrete input. -/
theorem c8_amended_generateTasks_idempotent_witness :
    (∀ tx ∈ [c8txM], tx.status = TransactionStatus.MISSING_RECEIPT → tx.id ≠ "") ∧
    generateTasks 3 [c8txM] (generateTasks 2 [c8txM] []) = generateTasks 2 [c8txM] [] :=
  ⟨by decide, c8_amended_generateTasks_idempotent 2 3 [c8txM] [] (by decide)⟩
